import Mathlib

/-!
# Verification of the 8-puzzle A* solver core

This development shallowly embeds the search core of `puzzle.02.py`:
the Manhattan-distance heuristic (`calculate_manhattan_distance`), neighbor
generation (`get_neighbors`), path reconstruction (`reconstruct_path`), and
the A* engine (`solve_puzzle`), together with the input validation performed
by the calling layer (`set_board_from_input`).

Board configurations are `List Nat` of length 9 (value 0 is the blank).
The Python `heapq` frontier of `(f_cost, unique_id, node)` triples is
modelled as a list from which `popMin` extracts the entry with the
lexicographically least `(f_cost, unique_id)` key; since unique ids are
distinct, this is exactly the element `heapq.heappop` returns (the node
comparison `PuzzleNode.__lt__` is never consulted when ids differ).
Python's `set` is modelled as a duplicate-free list (`setAdd`), and the
`open_set_g_costs` dict as an association list (`lookupA` / `insertA`,
last-write-wins like a Python dict).

The search state additionally carries ghost instrumentation (`popCount`,
`pushCount`, `expansions`, `closedAtG`) that records events without ever
influencing control flow; the non-ghost fields evolve exactly as the
Python state does.
-/

/-- The four move labels `'UP' | 'DOWN' | 'LEFT' | 'RIGHT'` of the source. -/
inductive Move where
  | UP
  | DOWN
  | LEFT
  | RIGHT
deriving DecidableEq, Repr

/-- `PuzzleNode(state, parent, move, g_cost)` with the `h_cost`/`f_cost`
fields that the source assigns immediately after construction. -/
inductive PuzzleNode where
  | mk (state : List Nat) (parent : Option PuzzleNode) (move : Option Move)
      (g_cost h_cost f_cost : Nat)

/-- Field accessor for `PuzzleNode.state`. -/
def PuzzleNode.state : PuzzleNode → List Nat
  | .mk s _ _ _ _ _ => s

/-- Field accessor for `PuzzleNode.parent`. -/
def PuzzleNode.parent : PuzzleNode → Option PuzzleNode
  | .mk _ p _ _ _ _ => p

/-- Field accessor for `PuzzleNode.move`. -/
def PuzzleNode.move : PuzzleNode → Option Move
  | .mk _ _ m _ _ _ => m

/-- Field accessor for `PuzzleNode.g_cost`. -/
def PuzzleNode.g_cost : PuzzleNode → Nat
  | .mk _ _ _ g _ _ => g

/-- Field accessor for `PuzzleNode.h_cost`. -/
def PuzzleNode.h_cost : PuzzleNode → Nat
  | .mk _ _ _ _ h _ => h

/-- Field accessor for `PuzzleNode.f_cost`. -/
def PuzzleNode.f_cost : PuzzleNode → Nat
  | .mk _ _ _ _ _ f => f

/-- Association-list lookup, modelling Python dict access `d[k]` /
`k in d` (`none` when the key is absent). -/
def lookupA {α : Type} [DecidableEq α] : List (α × Nat) → α → Option Nat
  | [], _ => none
  | (k, v) :: rest, key => if k = key then some v else lookupA rest key

/-- Association-list update, modelling Python dict assignment `d[k] = v`
(replaces the binding if the key is present, otherwise appends it). -/
def insertA {α : Type} [DecidableEq α] : List (α × Nat) → α → Nat → List (α × Nat)
  | [], key, v => [(key, v)]
  | (k, w) :: rest, key, v =>
    if k = key then (k, v) :: rest else (k, w) :: insertA rest key v

/-- The simultaneous swap assignment
`new_state_list[blank_index], new_state_list[swap_index] = \
  new_state_list[swap_index], new_state_list[blank_index]`
of `get_neighbors`. -/
def swapCells (s : List Nat) (b j : Nat) : List Nat :=
  (s.set b (s.getD j 0)).set j (s.getD b 0)

/-- `abs(i//3 - j//3) + abs(i%3 - j%3)`: grid taxicab distance between two
cell indices of the 3x3 board. -/
def manhattanD (i j : Nat) : Nat :=
  ((i : Int) / 3 - (j : Int) / 3).natAbs + ((i : Int) % 3 - (j : Int) % 3).natAbs

/-- `calculate_manhattan_distance(state, goal_state)`: builds the
`goal_positions` dict (`{tile: i for i, tile in enumerate(goal_state)}`,
last write wins) and sums, over every non-blank tile of `state`, the grid
distance between its index and its goal index.  Python raises `KeyError`
for a tile absent from the goal; the embedding is total and uses a default
of 0 there, so it agrees with the source whenever every non-blank tile of
`state` occurs in `goal` (in particular on permutations).  The dict
`goal_positions = {tile: i for i, tile in enumerate(goal_state)}` is named
`goalPositions` here. -/
def goalPositions (goal_state : List Nat) : List (Nat × Nat) :=
  goal_state.enum.foldl (fun d p => insertA d p.2 p.1) []

/-- Index assigned to `tile` by the `goal_positions` dict (its last index
of occurrence in the goal; 0 for a tile the goal lacks, where Python
would raise `KeyError`). -/
def goalIndexD (goal_state : List Nat) (tile : Nat) : Nat :=
  (lookupA (goalPositions goal_state) tile).getD 0

def calculate_manhattan_distance (state goal_state : List Nat) : Nat :=
  state.enum.foldl
    (fun acc p =>
      if p.2 = 0 then acc
      else acc + manhattanD p.1 (goalIndexD goal_state p.2))
    0

/-- The `possible_moves` table `[(-1,0,'UP'), (1,0,'DOWN'), (0,-1,'LEFT'),
(0,1,'RIGHT')]`. -/
def possible_moves : List (Int × Int × Move) :=
  [(-1, 0, .UP), (1, 0, .DOWN), (0, -1, .LEFT), (0, 1, .RIGHT)]

/-- `get_neighbors(node, goal_state)`: locate the blank (`state.index(0)`;
the embedding's `List.indexOf` agrees with Python whenever 0 occurs in the
state), and for each in-bounds direction emit the successor node obtained
by swapping the blank with the adjacent tile, with `g_cost` one more than
the parent's and `h_cost`/`f_cost` filled in as the source does. -/
def get_neighbors (node : PuzzleNode) (goal_state : List Nat) : List PuzzleNode :=
  let state := node.state
  let blank_index := state.indexOf 0
  let blank_row : Int := (blank_index / 3 : Nat)
  let blank_col : Int := (blank_index % 3 : Nat)
  possible_moves.filterMap fun m =>
    let new_row := blank_row + m.1
    let new_col := blank_col + m.2.1
    if 0 ≤ new_row ∧ new_row < 3 ∧ 0 ≤ new_col ∧ new_col < 3 then
      let swap_index : Nat := (new_row * 3 + new_col).toNat
      let new_state := swapCells state blank_index swap_index
      let h := calculate_manhattan_distance new_state goal_state
      some (.mk new_state (some node) (some m.2.2) (node.g_cost + 1) h
        (node.g_cost + 1 + h))
    else none

/-- `reconstruct_path(node)`: the states along the parent chain, from the
root to `node` (the source collects them node-to-root and reverses). -/
def reconstruct_path : PuzzleNode → List (List Nat)
  | .mk s p _ _ _ _ =>
    (match p with
     | none => []
     | some q => reconstruct_path q) ++ [s]

/-- The inversion count of the double loop in `solve_puzzle`: pairs
`i < j` with `flat[i] > flat[j]`. -/
def countInv : List Nat → Nat
  | [] => 0
  | x :: xs => xs.countP (fun y => decide (y < x)) + countInv xs

/-- What `solve_puzzle` puts into its result queue: `{"unsolvable": True}`,
a solution dict (path, moves, explored), `None` on frontier exhaustion, or
the out-of-fuel marker of the fuelled embedding. -/
inductive SolveResult where
  | unsolvable
  | solved (path : List (List Nat)) (moves : Nat) (explored : Nat)
  | noSolution
  | outOfFuel
deriving DecidableEq

/-- The mutable state of the A* loop.  `open_set`, `closed_set`,
`g_costs` and `unique_id` are the Python variables `open_set`,
`closed_set`, `open_set_g_costs` and `unique_id`; the remaining fields are
ghost instrumentation (event counters and traces) that never influence
control flow. -/
structure SearchState where
  open_set : List (Nat × Nat × PuzzleNode)
  closed_set : List (List Nat)
  g_costs : List (List Nat × Nat)
  unique_id : Nat
  pushCount : Nat
  popCount : Nat
  expansions : List (List Nat)
  closedAtG : List (List Nat × Nat)

/-- Lexicographic key order on frontier entries: Python's tuple comparison
on `(f_cost, unique_id, node)`, which never reaches the node component
when the unique ids differ. -/
def entryLe (a b : Nat × Nat × PuzzleNode) : Prop :=
  a.1 < b.1 ∨ (a.1 = b.1 ∧ a.2.1 ≤ b.2.1)

instance (a b : Nat × Nat × PuzzleNode) : Decidable (entryLe a b) := by
  unfold entryLe
  infer_instance

/-- Extract the frontier entry with the least `(f_cost, unique_id)` key,
together with the remaining entries: the observable behavior of
`heapq.heappop` on a heap with distinct unique ids. -/
def popMin : List (Nat × Nat × PuzzleNode) →
    Option ((Nat × Nat × PuzzleNode) × List (Nat × Nat × PuzzleNode))
  | [] => none
  | e :: es =>
    match popMin es with
    | none => some (e, [])
    | some (m, rest) => if entryLe e m then some (e, es) else some (m, e :: rest)

/-- Python `set.add`: insert unless already present. -/
def setAdd (s : List (List Nat)) (x : List Nat) : List (List Nat) :=
  if x ∈ s then s else x :: s

/-- The body of the neighbor loop of `solve_puzzle`: skip a neighbor
whose configuration is closed, skip it when the recorded best cost is not
strictly worse than its `g_cost` (`new_g_cost >= open_set_g_costs[...]`),
and otherwise record the new best cost and push the node with a fresh
unique id. -/
def pushNeighbor (s : SearchState) (nb : PuzzleNode) : SearchState :=
  if nb.state ∈ s.closed_set then s
  else if (match lookupA s.g_costs nb.state with
           | some old => decide (old ≤ nb.g_cost)
           | none => false) then s
  else
    { s with
      g_costs := insertA s.g_costs nb.state nb.g_cost
      unique_id := s.unique_id + 1
      open_set := s.open_set ++ [(nb.f_cost, s.unique_id + 1, nb)]
      pushCount := s.pushCount + 1 }

/-- The `while open_set:` loop of `solve_puzzle`, with an explicit fuel
parameter (the source loop has no bound; `outOfFuel` is an artifact of the
embedding and signals only that `fuel` iterations were insufficient). -/
def solveLoop (goal_state : List Nat) (st : SearchState) :
    Nat → SolveResult × SearchState
  | 0 => (.outOfFuel, st)
  | fuel + 1 =>
    match popMin st.open_set with
    | none => (.noSolution, st)
    | some (e, rest) =>
      let current_node := e.2.2
      let st1 : SearchState := { st with
        open_set := rest
        popCount := st.popCount + 1 }
      if current_node.state = goal_state then
        (.solved (reconstruct_path current_node) current_node.g_cost
          st1.closed_set.length, st1)
      else
        let st2 : SearchState := { st1 with
          closed_set := setAdd st1.closed_set current_node.state
          closedAtG :=
            if current_node.state ∈ st1.closed_set then st1.closedAtG
            else insertA st1.closedAtG current_node.state st1.unique_id
          expansions := st1.expansions ++ [current_node.state] }
        let st3 := (get_neighbors current_node goal_state).foldl pushNeighbor st2
        solveLoop goal_state st3 fuel

/-- The search state before any push or pop has happened. -/
def emptySearchState : SearchState :=
  { open_set := [], closed_set := [], g_costs := [], unique_id := 0,
    pushCount := 0, popCount := 0, expansions := [], closedAtG := [] }

/-- `solve_puzzle(initial_state, goal_state, result_queue)`: the
solvability pre-check (inversion parity of the non-blank tiles in linear
order), then A* from the root node.  The returned pair is the value the
source puts into `result_queue` together with the final search state.  In
the unsolvable branch the source returns before creating the frontier,
the closed set, or the cost dict, which is what `emptySearchState`
records. -/
def solve_puzzle (initial_state goal_state : List Nat) (fuel : Nat) :
    SolveResult × SearchState :=
  let flat_state := initial_state.filter (fun t => decide (t ≠ 0))
  let inversions := countInv flat_state
  if inversions % 2 ≠ 0 then (.unsolvable, emptySearchState)
  else
    let h0 := calculate_manhattan_distance initial_state goal_state
    let start_node := PuzzleNode.mk initial_state none none 0 h0 (0 + h0)
    let st0 : SearchState :=
      { open_set := [(start_node.f_cost, 0, start_node)]
        closed_set := []
        g_costs := [(initial_state, 0)]
        unique_id := 0
        pushCount := 1
        popCount := 0
        expansions := []
        closedAtG := [] }
    solveLoop goal_state st0 fuel

/-- The canonical goal `(1,2,3,4,5,6,7,8,0)` of the main program. -/
def GOAL_STATE : List Nat := [1, 2, 3, 4, 5, 6, 7, 8, 0]

/-- The input validation of `set_board_from_input` (calling layer): after
parsing the entry text into integers, accept iff there are exactly 9
numbers and `sorted(nums) == list(range(9))`. -/
def set_board_accepts (nums : List Int) : Bool :=
  decide (nums.length = 9) &&
    decide (nums.mergeSort (fun a b => decide (a ≤ b)) = (List.range 9).map Int.ofNat)

/-! ## Specification-level notions -/

/-- A configuration is a permutation of `{0,…,8}`. -/
def IsPerm (s : List Nat) : Prop := s.Perm (List.range 9)

instance (s : List Nat) : Decidable (IsPerm s) := by
  unfold IsPerm
  infer_instance

/-- The successor configurations of a configuration, as computed by
`get_neighbors` (the emitted states do not depend on the node's
bookkeeping fields or on the goal). -/
def neighborStates (s : List Nat) : List (List Nat) :=
  (get_neighbors (.mk s none none 0 0 0) []).map PuzzleNode.state

/-- `ReachN start n t`: there is a walk of exactly `n` sliding-tile moves
from `start` to `t` in the move graph generated by `neighborStates`. -/
inductive ReachN (start : List Nat) : Nat → List Nat → Prop
  | refl : ReachN start 0 start
  | tail {n t u} : ReachN start n t → u ∈ neighborStates t → ReachN start (n + 1) u

/-! ## Basic facts about the loop -/

/-- The `while` loop itself can never produce the unsolvable outcome: that
result is only created by the parity pre-check. -/
theorem solveLoop_ne_unsolvable (goal : List Nat) :
    ∀ (fuel : Nat) (st : SearchState), (solveLoop goal st fuel).1 ≠ .unsolvable := by
  intro fuel
  induction fuel with
  | zero => intro st; simp [solveLoop]
  | succ n ih =>
    intro st
    rw [solveLoop]
    cases h : popMin st.open_set with
    | none => simp
    | some pr =>
      simp only
      split
      · simp
      · exact ih _

/-! ## C4: the parity pre-check -/

/-- C4: for every permutation P of {0..8} (against the canonical goal),
solve returns Unsolvable iff the inversion count of the non-zero elements
of P in linear order is odd, and the Unsolvable result is produced before
any search node is pushed or popped. -/
theorem C4_unsolvable_iff_odd_inversions (P : List Nat) (fuel : Nat) (hP : IsPerm P) :
    ((solve_puzzle P GOAL_STATE fuel).1 = .unsolvable ↔
      countInv (P.filter (fun t => decide (t ≠ 0))) % 2 = 1) ∧
    ((solve_puzzle P GOAL_STATE fuel).1 = .unsolvable →
      (solve_puzzle P GOAL_STATE fuel).2.pushCount = 0 ∧
      (solve_puzzle P GOAL_STATE fuel).2.popCount = 0) := by
  unfold solve_puzzle
  by_cases h : countInv (P.filter (fun t => decide (t ≠ 0))) % 2 ≠ 0
  · rw [if_pos h]
    refine ⟨⟨fun _ => by omega, fun _ => rfl⟩, fun _ => ⟨rfl, rfl⟩⟩
  · rw [if_neg h]
    simp only
    refine ⟨⟨fun hc => absurd hc (solveLoop_ne_unsolvable _ _ _), fun hc => by omega⟩,
      fun hc => absurd hc (solveLoop_ne_unsolvable _ _ _)⟩

/-- Witness for C4 at the concrete odd-parity permutation
`(2,1,3,4,5,6,7,8,0)`. -/
theorem C4_witness :
    IsPerm [2, 1, 3, 4, 5, 6, 7, 8, 0] ∧
    ((solve_puzzle [2, 1, 3, 4, 5, 6, 7, 8, 0] GOAL_STATE 5).1 = .unsolvable ↔
      countInv ([2, 1, 3, 4, 5, 6, 7, 8, 0].filter (fun t => decide (t ≠ 0))) % 2 = 1) :=
  ⟨by decide, (C4_unsolvable_iff_odd_inversions [2, 1, 3, 4, 5, 6, 7, 8, 0] 5 (by decide)).1⟩

/-! ## C9: start equal to goal -/

/-- C9: if start equals goal (and start is a solvable permutation), solve
returns Solved with path `[start]`, moveCount 0 and exploredCount 0. -/
theorem C9_start_eq_goal (s : List Nat) (fuel : Nat) (hperm : IsPerm s)
    (hsolv : countInv (s.filter (fun t => decide (t ≠ 0))) % 2 = 0) :
    (solve_puzzle s s (fuel + 1)).1 = .solved [s] 0 0 := by
  unfold solve_puzzle
  rw [if_neg (by omega)]
  rw [solveLoop]
  simp [popMin, PuzzleNode.state, PuzzleNode.g_cost, reconstruct_path]

/-- Witness for C9 at the canonical goal configuration. -/
theorem C9_witness : (solve_puzzle GOAL_STATE GOAL_STATE 1).1 = .solved [GOAL_STATE] 0 0 :=
  C9_start_eq_goal GOAL_STATE 0 (by decide) (by decide)

/-! ## C5: determinism -/

/-- C5: two runs of solve on identical inputs produce identical results
(path, moveCount, exploredCount and the whole final search state).  The
embedding is a pure function of its inputs: the source's tie-breaks are
fully determined by the `(f_cost, unique_id)` keys, so no step of the loop
depends on anything but `start`, `goal` and the evolving state. -/
theorem C5_determinism (start goal : List Nat) (fuel : Nat)
    (r1 r2 : SolveResult × SearchState)
    (h1 : solve_puzzle start goal fuel = r1)
    (h2 : solve_puzzle start goal fuel = r2) : r1 = r2 :=
  h1 ▸ h2 ▸ rfl

/-- Witness for C5 at a concrete instance. -/
theorem C5_witness :
    solve_puzzle GOAL_STATE GOAL_STATE 1 = solve_puzzle GOAL_STATE GOAL_STATE 1 :=
  C5_determinism GOAL_STATE GOAL_STATE 1 _ _ rfl rfl

/-! ## C2: input validation -/

/-- C2 counterexample: `(0,1,2,3,4,5,6,7,7)` is not a permutation of 0..8
(7 is duplicated, 8 is missing), yet the solve core does not fail: it
proceeds into the search (two heap pops happen) and even returns a Solved
result.  The core performs no configuration validation at all. -/
theorem C2_counterexample :
    ¬ IsPerm [0, 1, 2, 3, 4, 5, 6, 7, 7] ∧
    (solve_puzzle [0, 1, 2, 3, 4, 5, 6, 7, 7] [1, 0, 2, 3, 4, 5, 6, 7, 7] 10).1 =
      .solved [[0, 1, 2, 3, 4, 5, 6, 7, 7], [1, 0, 2, 3, 4, 5, 6, 7, 7]] 1 1 ∧
    (solve_puzzle [0, 1, 2, 3, 4, 5, 6, 7, 7] [1, 0, 2, 3, 4, 5, 6, 7, 7] 10).2.popCount = 2 := by
  decide

/-- C2 amended: the rejection of non-permutations is performed by the
calling layer, not the core: `set_board_from_input` accepts a parsed
integer list iff it is a permutation of 0..8 (exactly 9 entries whose
ascending sort is `[0,…,8]`), and only accepted configurations are handed
to `solve_puzzle`. -/
theorem C2_amended_calling_layer_validates (nums : List Int) :
    set_board_accepts nums = true ↔ nums.Perm ((List.range 9).map Int.ofNat) := by
  unfold set_board_accepts
  simp only [Bool.and_eq_true, decide_eq_true_eq]
  constructor
  · intro h
    rw [← h.2]
    exact (List.mergeSort_perm _ _).symm
  · intro h
    refine ⟨by simpa using h.length_eq, ?_⟩
    have hperm : (nums.mergeSort (fun a b => decide (a ≤ b))).Perm
        ((List.range 9).map Int.ofNat) := (List.mergeSort_perm _ _).trans h
    have hs1 : (nums.mergeSort (fun a b => decide (a ≤ b))).Sorted (· ≤ ·) := by
      have := @List.sorted_mergeSort Int
        (fun a b : Int => decide (a ≤ b))
        (fun a b c hab hbc => by
          simp only [decide_eq_true_eq] at *
          omega)
        (fun a b => by
          simp only [Bool.or_eq_true, decide_eq_true_eq]
          omega)
        nums
      exact List.Pairwise.imp (fun hab => by simpa using hab) this
    have hs2 : (((List.range 9).map Int.ofNat)).Sorted (· ≤ ·) := by decide
    exact List.eq_of_perm_of_sorted hperm hs1 hs2

/-- Witness for the amended C2 statement at a concrete permutation. -/
theorem C2_amended_witness :
    set_board_accepts [3, 1, 4, 0, 5, 8, 2, 6, 7] = true :=
  (C2_amended_calling_layer_validates [3, 1, 4, 0, 5, 8, 2, 6, 7]).mpr (by decide)

/-! ## Explicit neighbor tables, one per blank position -/

/-- Explicit form of `get_neighbors` when the blank is at index 0. -/
theorem gn_blank0 (s : List Nat) (p : Option PuzzleNode) (mv : Option Move)
    (g h f : Nat) (goal : List Nat) (hb : s.indexOf 0 = 0) :
    get_neighbors (.mk s p mv g h f) goal =
      [
       .mk (swapCells s 0 3) (some (.mk s p mv g h f)) (some .DOWN) (g + 1)
         (calculate_manhattan_distance (swapCells s 0 3) goal)
         (g + 1 + calculate_manhattan_distance (swapCells s 0 3) goal),
       .mk (swapCells s 0 1) (some (.mk s p mv g h f)) (some .RIGHT) (g + 1)
         (calculate_manhattan_distance (swapCells s 0 1) goal)
         (g + 1 + calculate_manhattan_distance (swapCells s 0 1) goal)] := by
  simp only [get_neighbors, PuzzleNode.state, PuzzleNode.g_cost, hb, possible_moves,
    List.filterMap]
  norm_num
  all_goals repeat' apply And.intro
  all_goals rfl


/-- Explicit form of `get_neighbors` when the blank is at index 1. -/
theorem gn_blank1 (s : List Nat) (p : Option PuzzleNode) (mv : Option Move)
    (g h f : Nat) (goal : List Nat) (hb : s.indexOf 0 = 1) :
    get_neighbors (.mk s p mv g h f) goal =
      [
       .mk (swapCells s 1 4) (some (.mk s p mv g h f)) (some .DOWN) (g + 1)
         (calculate_manhattan_distance (swapCells s 1 4) goal)
         (g + 1 + calculate_manhattan_distance (swapCells s 1 4) goal),
       .mk (swapCells s 1 0) (some (.mk s p mv g h f)) (some .LEFT) (g + 1)
         (calculate_manhattan_distance (swapCells s 1 0) goal)
         (g + 1 + calculate_manhattan_distance (swapCells s 1 0) goal),
       .mk (swapCells s 1 2) (some (.mk s p mv g h f)) (some .RIGHT) (g + 1)
         (calculate_manhattan_distance (swapCells s 1 2) goal)
         (g + 1 + calculate_manhattan_distance (swapCells s 1 2) goal)] := by
  simp only [get_neighbors, PuzzleNode.state, PuzzleNode.g_cost, hb, possible_moves,
    List.filterMap]
  norm_num
  all_goals repeat' apply And.intro
  all_goals rfl


/-- Explicit form of `get_neighbors` when the blank is at index 2. -/
theorem gn_blank2 (s : List Nat) (p : Option PuzzleNode) (mv : Option Move)
    (g h f : Nat) (goal : List Nat) (hb : s.indexOf 0 = 2) :
    get_neighbors (.mk s p mv g h f) goal =
      [
       .mk (swapCells s 2 5) (some (.mk s p mv g h f)) (some .DOWN) (g + 1)
         (calculate_manhattan_distance (swapCells s 2 5) goal)
         (g + 1 + calculate_manhattan_distance (swapCells s 2 5) goal),
       .mk (swapCells s 2 1) (some (.mk s p mv g h f)) (some .LEFT) (g + 1)
         (calculate_manhattan_distance (swapCells s 2 1) goal)
         (g + 1 + calculate_manhattan_distance (swapCells s 2 1) goal)] := by
  simp only [get_neighbors, PuzzleNode.state, PuzzleNode.g_cost, hb, possible_moves,
    List.filterMap]
  norm_num
  all_goals repeat' apply And.intro
  all_goals rfl


/-- Explicit form of `get_neighbors` when the blank is at index 3. -/
theorem gn_blank3 (s : List Nat) (p : Option PuzzleNode) (mv : Option Move)
    (g h f : Nat) (goal : List Nat) (hb : s.indexOf 0 = 3) :
    get_neighbors (.mk s p mv g h f) goal =
      [
       .mk (swapCells s 3 0) (some (.mk s p mv g h f)) (some .UP) (g + 1)
         (calculate_manhattan_distance (swapCells s 3 0) goal)
         (g + 1 + calculate_manhattan_distance (swapCells s 3 0) goal),
       .mk (swapCells s 3 6) (some (.mk s p mv g h f)) (some .DOWN) (g + 1)
         (calculate_manhattan_distance (swapCells s 3 6) goal)
         (g + 1 + calculate_manhattan_distance (swapCells s 3 6) goal),
       .mk (swapCells s 3 4) (some (.mk s p mv g h f)) (some .RIGHT) (g + 1)
         (calculate_manhattan_distance (swapCells s 3 4) goal)
         (g + 1 + calculate_manhattan_distance (swapCells s 3 4) goal)] := by
  simp only [get_neighbors, PuzzleNode.state, PuzzleNode.g_cost, hb, possible_moves,
    List.filterMap]
  norm_num
  all_goals repeat' apply And.intro
  all_goals rfl


/-- Explicit form of `get_neighbors` when the blank is at index 4. -/
theorem gn_blank4 (s : List Nat) (p : Option PuzzleNode) (mv : Option Move)
    (g h f : Nat) (goal : List Nat) (hb : s.indexOf 0 = 4) :
    get_neighbors (.mk s p mv g h f) goal =
      [
       .mk (swapCells s 4 1) (some (.mk s p mv g h f)) (some .UP) (g + 1)
         (calculate_manhattan_distance (swapCells s 4 1) goal)
         (g + 1 + calculate_manhattan_distance (swapCells s 4 1) goal),
       .mk (swapCells s 4 7) (some (.mk s p mv g h f)) (some .DOWN) (g + 1)
         (calculate_manhattan_distance (swapCells s 4 7) goal)
         (g + 1 + calculate_manhattan_distance (swapCells s 4 7) goal),
       .mk (swapCells s 4 3) (some (.mk s p mv g h f)) (some .LEFT) (g + 1)
         (calculate_manhattan_distance (swapCells s 4 3) goal)
         (g + 1 + calculate_manhattan_distance (swapCells s 4 3) goal),
       .mk (swapCells s 4 5) (some (.mk s p mv g h f)) (some .RIGHT) (g + 1)
         (calculate_manhattan_distance (swapCells s 4 5) goal)
         (g + 1 + calculate_manhattan_distance (swapCells s 4 5) goal)] := by
  simp only [get_neighbors, PuzzleNode.state, PuzzleNode.g_cost, hb, possible_moves,
    List.filterMap]
  norm_num
  all_goals repeat' apply And.intro
  all_goals rfl


/-- Explicit form of `get_neighbors` when the blank is at index 5. -/
theorem gn_blank5 (s : List Nat) (p : Option PuzzleNode) (mv : Option Move)
    (g h f : Nat) (goal : List Nat) (hb : s.indexOf 0 = 5) :
    get_neighbors (.mk s p mv g h f) goal =
      [
       .mk (swapCells s 5 2) (some (.mk s p mv g h f)) (some .UP) (g + 1)
         (calculate_manhattan_distance (swapCells s 5 2) goal)
         (g + 1 + calculate_manhattan_distance (swapCells s 5 2) goal),
       .mk (swapCells s 5 8) (some (.mk s p mv g h f)) (some .DOWN) (g + 1)
         (calculate_manhattan_distance (swapCells s 5 8) goal)
         (g + 1 + calculate_manhattan_distance (swapCells s 5 8) goal),
       .mk (swapCells s 5 4) (some (.mk s p mv g h f)) (some .LEFT) (g + 1)
         (calculate_manhattan_distance (swapCells s 5 4) goal)
         (g + 1 + calculate_manhattan_distance (swapCells s 5 4) goal)] := by
  simp only [get_neighbors, PuzzleNode.state, PuzzleNode.g_cost, hb, possible_moves,
    List.filterMap]
  norm_num
  all_goals repeat' apply And.intro
  all_goals rfl


/-- Explicit form of `get_neighbors` when the blank is at index 6. -/
theorem gn_blank6 (s : List Nat) (p : Option PuzzleNode) (mv : Option Move)
    (g h f : Nat) (goal : List Nat) (hb : s.indexOf 0 = 6) :
    get_neighbors (.mk s p mv g h f) goal =
      [
       .mk (swapCells s 6 3) (some (.mk s p mv g h f)) (some .UP) (g + 1)
         (calculate_manhattan_distance (swapCells s 6 3) goal)
         (g + 1 + calculate_manhattan_distance (swapCells s 6 3) goal),
       .mk (swapCells s 6 7) (some (.mk s p mv g h f)) (some .RIGHT) (g + 1)
         (calculate_manhattan_distance (swapCells s 6 7) goal)
         (g + 1 + calculate_manhattan_distance (swapCells s 6 7) goal)] := by
  simp only [get_neighbors, PuzzleNode.state, PuzzleNode.g_cost, hb, possible_moves,
    List.filterMap]
  norm_num
  all_goals repeat' apply And.intro
  all_goals rfl


/-- Explicit form of `get_neighbors` when the blank is at index 7. -/
theorem gn_blank7 (s : List Nat) (p : Option PuzzleNode) (mv : Option Move)
    (g h f : Nat) (goal : List Nat) (hb : s.indexOf 0 = 7) :
    get_neighbors (.mk s p mv g h f) goal =
      [
       .mk (swapCells s 7 4) (some (.mk s p mv g h f)) (some .UP) (g + 1)
         (calculate_manhattan_distance (swapCells s 7 4) goal)
         (g + 1 + calculate_manhattan_distance (swapCells s 7 4) goal),
       .mk (swapCells s 7 6) (some (.mk s p mv g h f)) (some .LEFT) (g + 1)
         (calculate_manhattan_distance (swapCells s 7 6) goal)
         (g + 1 + calculate_manhattan_distance (swapCells s 7 6) goal),
       .mk (swapCells s 7 8) (some (.mk s p mv g h f)) (some .RIGHT) (g + 1)
         (calculate_manhattan_distance (swapCells s 7 8) goal)
         (g + 1 + calculate_manhattan_distance (swapCells s 7 8) goal)] := by
  simp only [get_neighbors, PuzzleNode.state, PuzzleNode.g_cost, hb, possible_moves,
    List.filterMap]
  norm_num
  all_goals repeat' apply And.intro
  all_goals rfl


/-- Explicit form of `get_neighbors` when the blank is at index 8. -/
theorem gn_blank8 (s : List Nat) (p : Option PuzzleNode) (mv : Option Move)
    (g h f : Nat) (goal : List Nat) (hb : s.indexOf 0 = 8) :
    get_neighbors (.mk s p mv g h f) goal =
      [
       .mk (swapCells s 8 5) (some (.mk s p mv g h f)) (some .UP) (g + 1)
         (calculate_manhattan_distance (swapCells s 8 5) goal)
         (g + 1 + calculate_manhattan_distance (swapCells s 8 5) goal),
       .mk (swapCells s 8 7) (some (.mk s p mv g h f)) (some .LEFT) (g + 1)
         (calculate_manhattan_distance (swapCells s 8 7) goal)
         (g + 1 + calculate_manhattan_distance (swapCells s 8 7) goal)] := by
  simp only [get_neighbors, PuzzleNode.state, PuzzleNode.g_cost, hb, possible_moves,
    List.filterMap]
  norm_num
  all_goals repeat' apply And.intro
  all_goals rfl

/-- A configuration differing from `s` by exactly one swap of the blank
with a grid-adjacent cell (the two cells at taxicab distance 1). -/
def IsAdjacentBlankSwap (s s' : List Nat) : Prop :=
  ∃ j, j < 9 ∧ manhattanD (s.indexOf 0) j = 1 ∧ s' = swapCells s (s.indexOf 0) j

/-- A permutation of `{0,…,8}` contains 0 within its 9 entries. -/
theorem IsPerm.indexOf_zero_lt (s : List Nat) (hS : IsPerm s) : s.indexOf 0 < 9 := by
  have hmem : (0 : Nat) ∈ s := hS.mem_iff.mpr (by decide)
  have hlen : s.length = 9 := hS.length_eq.trans (by simp)
  rw [← hlen]
  exact List.indexOf_lt_length.mpr hmem

/-- C7: for a permutation S, `get_neighbors` returns exactly 2 results
when the blank is in a corner, 3 on an edge, 4 in the center; each
returned configuration differs from S by exactly one swap of the blank
with an adjacent tile; and the move labels are emitted in the fixed order
UP, DOWN, LEFT, RIGHT. -/
theorem C7_neighbor_generation (S goal_state : List Nat) (node : PuzzleNode)
    (hS : IsPerm S) (hnode : node.state = S) :
    ((S.indexOf 0 = 0 ∨ S.indexOf 0 = 2 ∨ S.indexOf 0 = 6 ∨ S.indexOf 0 = 8) →
      (get_neighbors node goal_state).length = 2) ∧
    ((S.indexOf 0 = 1 ∨ S.indexOf 0 = 3 ∨ S.indexOf 0 = 5 ∨ S.indexOf 0 = 7) →
      (get_neighbors node goal_state).length = 3) ∧
    (S.indexOf 0 = 4 → (get_neighbors node goal_state).length = 4) ∧
    (∀ nd ∈ get_neighbors node goal_state, IsAdjacentBlankSwap S nd.state) ∧
    ((get_neighbors node goal_state).map PuzzleNode.move).Sublist
      [some .UP, some .DOWN, some .LEFT, some .RIGHT] := by
  have hb9 := IsPerm.indexOf_zero_lt S hS
  cases node with
  | mk s p mv g h f =>
    simp only [PuzzleNode.state] at hnode
    subst hnode
    have hsplit : s.indexOf 0 = 0 ∨ s.indexOf 0 = 1 ∨ s.indexOf 0 = 2 ∨
        s.indexOf 0 = 3 ∨ s.indexOf 0 = 4 ∨ s.indexOf 0 = 5 ∨ s.indexOf 0 = 6 ∨
        s.indexOf 0 = 7 ∨ s.indexOf 0 = 8 := by omega
    rcases hsplit with hb | hb | hb | hb | hb | hb | hb | hb | hb
    · rw [gn_blank0 s p mv g h f goal_state hb]
      refine ⟨fun hyp => rfl, fun hyp => by omega, fun hyp => by omega, ?_, ?_⟩
      · intro nd hnd
        simp only [List.mem_cons, List.not_mem_nil, or_false] at hnd
        rcases hnd with rfl | rfl
        · exact ⟨3, by decide, by rw [hb]; decide, by simp [PuzzleNode.state, hb]⟩
        · exact ⟨1, by decide, by rw [hb]; decide, by simp [PuzzleNode.state, hb]⟩
      · simp only [List.map_cons, List.map_nil, PuzzleNode.move]
        decide
    · rw [gn_blank1 s p mv g h f goal_state hb]
      refine ⟨fun hyp => by omega, fun hyp => rfl, fun hyp => by omega, ?_, ?_⟩
      · intro nd hnd
        simp only [List.mem_cons, List.not_mem_nil, or_false] at hnd
        rcases hnd with rfl | rfl | rfl
        · exact ⟨4, by decide, by rw [hb]; decide, by simp [PuzzleNode.state, hb]⟩
        · exact ⟨0, by decide, by rw [hb]; decide, by simp [PuzzleNode.state, hb]⟩
        · exact ⟨2, by decide, by rw [hb]; decide, by simp [PuzzleNode.state, hb]⟩
      · simp only [List.map_cons, List.map_nil, PuzzleNode.move]
        decide
    · rw [gn_blank2 s p mv g h f goal_state hb]
      refine ⟨fun hyp => rfl, fun hyp => by omega, fun hyp => by omega, ?_, ?_⟩
      · intro nd hnd
        simp only [List.mem_cons, List.not_mem_nil, or_false] at hnd
        rcases hnd with rfl | rfl
        · exact ⟨5, by decide, by rw [hb]; decide, by simp [PuzzleNode.state, hb]⟩
        · exact ⟨1, by decide, by rw [hb]; decide, by simp [PuzzleNode.state, hb]⟩
      · simp only [List.map_cons, List.map_nil, PuzzleNode.move]
        decide
    · rw [gn_blank3 s p mv g h f goal_state hb]
      refine ⟨fun hyp => by omega, fun hyp => rfl, fun hyp => by omega, ?_, ?_⟩
      · intro nd hnd
        simp only [List.mem_cons, List.not_mem_nil, or_false] at hnd
        rcases hnd with rfl | rfl | rfl
        · exact ⟨0, by decide, by rw [hb]; decide, by simp [PuzzleNode.state, hb]⟩
        · exact ⟨6, by decide, by rw [hb]; decide, by simp [PuzzleNode.state, hb]⟩
        · exact ⟨4, by decide, by rw [hb]; decide, by simp [PuzzleNode.state, hb]⟩
      · simp only [List.map_cons, List.map_nil, PuzzleNode.move]
        decide
    · rw [gn_blank4 s p mv g h f goal_state hb]
      refine ⟨fun hyp => by omega, fun hyp => by omega, fun hyp => rfl, ?_, ?_⟩
      · intro nd hnd
        simp only [List.mem_cons, List.not_mem_nil, or_false] at hnd
        rcases hnd with rfl | rfl | rfl | rfl
        · exact ⟨1, by decide, by rw [hb]; decide, by simp [PuzzleNode.state, hb]⟩
        · exact ⟨7, by decide, by rw [hb]; decide, by simp [PuzzleNode.state, hb]⟩
        · exact ⟨3, by decide, by rw [hb]; decide, by simp [PuzzleNode.state, hb]⟩
        · exact ⟨5, by decide, by rw [hb]; decide, by simp [PuzzleNode.state, hb]⟩
      · simp only [List.map_cons, List.map_nil, PuzzleNode.move]
        decide
    · rw [gn_blank5 s p mv g h f goal_state hb]
      refine ⟨fun hyp => by omega, fun hyp => rfl, fun hyp => by omega, ?_, ?_⟩
      · intro nd hnd
        simp only [List.mem_cons, List.not_mem_nil, or_false] at hnd
        rcases hnd with rfl | rfl | rfl
        · exact ⟨2, by decide, by rw [hb]; decide, by simp [PuzzleNode.state, hb]⟩
        · exact ⟨8, by decide, by rw [hb]; decide, by simp [PuzzleNode.state, hb]⟩
        · exact ⟨4, by decide, by rw [hb]; decide, by simp [PuzzleNode.state, hb]⟩
      · simp only [List.map_cons, List.map_nil, PuzzleNode.move]
        decide
    · rw [gn_blank6 s p mv g h f goal_state hb]
      refine ⟨fun hyp => rfl, fun hyp => by omega, fun hyp => by omega, ?_, ?_⟩
      · intro nd hnd
        simp only [List.mem_cons, List.not_mem_nil, or_false] at hnd
        rcases hnd with rfl | rfl
        · exact ⟨3, by decide, by rw [hb]; decide, by simp [PuzzleNode.state, hb]⟩
        · exact ⟨7, by decide, by rw [hb]; decide, by simp [PuzzleNode.state, hb]⟩
      · simp only [List.map_cons, List.map_nil, PuzzleNode.move]
        decide
    · rw [gn_blank7 s p mv g h f goal_state hb]
      refine ⟨fun hyp => by omega, fun hyp => rfl, fun hyp => by omega, ?_, ?_⟩
      · intro nd hnd
        simp only [List.mem_cons, List.not_mem_nil, or_false] at hnd
        rcases hnd with rfl | rfl | rfl
        · exact ⟨4, by decide, by rw [hb]; decide, by simp [PuzzleNode.state, hb]⟩
        · exact ⟨6, by decide, by rw [hb]; decide, by simp [PuzzleNode.state, hb]⟩
        · exact ⟨8, by decide, by rw [hb]; decide, by simp [PuzzleNode.state, hb]⟩
      · simp only [List.map_cons, List.map_nil, PuzzleNode.move]
        decide
    · rw [gn_blank8 s p mv g h f goal_state hb]
      refine ⟨fun hyp => rfl, fun hyp => by omega, fun hyp => by omega, ?_, ?_⟩
      · intro nd hnd
        simp only [List.mem_cons, List.not_mem_nil, or_false] at hnd
        rcases hnd with rfl | rfl
        · exact ⟨5, by decide, by rw [hb]; decide, by simp [PuzzleNode.state, hb]⟩
        · exact ⟨7, by decide, by rw [hb]; decide, by simp [PuzzleNode.state, hb]⟩
      · simp only [List.map_cons, List.map_nil, PuzzleNode.move]
        decide
/-- Witness for C7 at the canonical goal configuration (blank in the
bottom-right corner, hence 2 neighbors). -/
theorem C7_witness :
    (get_neighbors (.mk GOAL_STATE none none 0 0 0) GOAL_STATE).length = 2 ∧
    (∀ nd ∈ get_neighbors (.mk GOAL_STATE none none 0 0 0) GOAL_STATE,
      IsAdjacentBlankSwap GOAL_STATE nd.state) :=
  ⟨(C7_neighbor_generation GOAL_STATE GOAL_STATE (.mk GOAL_STATE none none 0 0 0)
      (by decide) (by simp [PuzzleNode.state])).1 (by decide),
   (C7_neighbor_generation GOAL_STATE GOAL_STATE (.mk GOAL_STATE none none 0 0 0)
      (by decide) (by simp [PuzzleNode.state])).2.2.2.1⟩

/-- Replacing index `j` by `a` while putting the old entry in front is a
permutation of putting `a` in front. -/
theorem getD_cons_set_perm : ∀ (t : List Nat) (j : Nat) (a : Nat), j < t.length →
    (t.getD j 0 :: t.set j a).Perm (a :: t)
  | b :: u, 0, a, _ => by
    simpa using List.Perm.swap a b u
  | b :: u, j + 1, a, h => by
    simp only [List.getD_cons_succ, List.set_cons_succ]
    have s1 : (u.getD j 0 :: b :: u.set j a).Perm (b :: u.getD j 0 :: u.set j a) :=
      List.Perm.swap b (u.getD j 0) (u.set j a)
    have s2 : (b :: u.getD j 0 :: u.set j a).Perm (b :: a :: u) :=
      List.Perm.cons b (getD_cons_set_perm u j a (by simpa using h))
    exact s1.trans (s2.trans (List.Perm.swap a b u))

/-- Swapping two in-bounds cells permutes the configuration. -/
theorem swapCells_perm : ∀ (l : List Nat) (i j : Nat), i < l.length → j < l.length →
    (swapCells l i j).Perm l
  | a :: t, 0, 0, _, _ => by
    simp [swapCells]
  | a :: t, 0, j + 1, hi, hj => by
    simp only [swapCells, List.getD_cons_succ, List.getD_cons_zero, List.set_cons_zero,
      List.set_cons_succ]
    exact getD_cons_set_perm t j a (by simpa using hj)
  | a :: t, i + 1, 0, hi, hj => by
    simp only [swapCells, List.getD_cons_succ, List.getD_cons_zero, List.set_cons_succ,
      List.set_cons_zero]
    exact getD_cons_set_perm t i a (by simpa using hi)
  | a :: t, i + 1, j + 1, hi, hj => by
    simp only [swapCells, List.getD_cons_succ, List.set_cons_succ]
    exact List.Perm.cons a (swapCells_perm t i j (by simpa using hi) (by simpa using hj))

/-- The states emitted by `get_neighbors` depend only on the node's
configuration (not on its bookkeeping fields or on the goal). -/
theorem gn_states_eq (node : PuzzleNode) (goal_state : List Nat)
    (h9 : node.state.indexOf 0 < 9) :
    (get_neighbors node goal_state).map PuzzleNode.state = neighborStates node.state := by
  cases node with
  | mk s p mv g h f =>
    simp only [PuzzleNode.state] at h9 ⊢
    unfold neighborStates
    have hsplit : s.indexOf 0 = 0 ∨ s.indexOf 0 = 1 ∨ s.indexOf 0 = 2 ∨
        s.indexOf 0 = 3 ∨ s.indexOf 0 = 4 ∨ s.indexOf 0 = 5 ∨ s.indexOf 0 = 6 ∨
        s.indexOf 0 = 7 ∨ s.indexOf 0 = 8 := by omega
    rcases hsplit with hb | hb | hb | hb | hb | hb | hb | hb | hb
    · rw [gn_blank0 s p mv g h f goal_state hb, gn_blank0 s none none 0 0 0 [] hb]
      simp [PuzzleNode.state]
    · rw [gn_blank1 s p mv g h f goal_state hb, gn_blank1 s none none 0 0 0 [] hb]
      simp [PuzzleNode.state]
    · rw [gn_blank2 s p mv g h f goal_state hb, gn_blank2 s none none 0 0 0 [] hb]
      simp [PuzzleNode.state]
    · rw [gn_blank3 s p mv g h f goal_state hb, gn_blank3 s none none 0 0 0 [] hb]
      simp [PuzzleNode.state]
    · rw [gn_blank4 s p mv g h f goal_state hb, gn_blank4 s none none 0 0 0 [] hb]
      simp [PuzzleNode.state]
    · rw [gn_blank5 s p mv g h f goal_state hb, gn_blank5 s none none 0 0 0 [] hb]
      simp [PuzzleNode.state]
    · rw [gn_blank6 s p mv g h f goal_state hb, gn_blank6 s none none 0 0 0 [] hb]
      simp [PuzzleNode.state]
    · rw [gn_blank7 s p mv g h f goal_state hb, gn_blank7 s none none 0 0 0 [] hb]
      simp [PuzzleNode.state]
    · rw [gn_blank8 s p mv g h f goal_state hb, gn_blank8 s none none 0 0 0 [] hb]
      simp [PuzzleNode.state]

/-- Everything the loop needs to know about a node emitted by
`get_neighbors`: parentage, costs, and that its state is an adjacent
blank swap of the parent state. -/
theorem gn_mem_spec (node : PuzzleNode) (goal_state : List Nat)
    (h9 : node.state.indexOf 0 < 9) :
    ∀ nd ∈ get_neighbors node goal_state,
      nd.parent = some node ∧
      nd.g_cost = node.g_cost + 1 ∧
      nd.h_cost = calculate_manhattan_distance nd.state goal_state ∧
      nd.f_cost = node.g_cost + 1 + nd.h_cost ∧
      IsAdjacentBlankSwap node.state nd.state ∧
      nd.state ∈ neighborStates node.state := by
  cases node with
  | mk s p mv g h f =>
    intro nd hnd
    simp only [PuzzleNode.state, PuzzleNode.g_cost] at h9 ⊢
    have hsplit : s.indexOf 0 = 0 ∨ s.indexOf 0 = 1 ∨ s.indexOf 0 = 2 ∨
        s.indexOf 0 = 3 ∨ s.indexOf 0 = 4 ∨ s.indexOf 0 = 5 ∨ s.indexOf 0 = 6 ∨
        s.indexOf 0 = 7 ∨ s.indexOf 0 = 8 := by omega
    rcases hsplit with hb | hb | hb | hb | hb | hb | hb | hb | hb
    · rw [gn_blank0 s p mv g h f goal_state hb] at hnd
      simp only [List.mem_cons, List.not_mem_nil, or_false] at hnd
      rcases hnd with rfl | rfl
      · refine ⟨rfl, rfl, rfl, rfl, ⟨3, by decide, by rw [hb]; decide, by simp [PuzzleNode.state, hb]⟩, ?_⟩
        rw [show neighborStates s = (get_neighbors (PuzzleNode.mk s none none 0 0 0) []).map PuzzleNode.state from rfl,
          gn_blank0 s none none 0 0 0 [] hb]
        simp [PuzzleNode.state]
      · refine ⟨rfl, rfl, rfl, rfl, ⟨1, by decide, by rw [hb]; decide, by simp [PuzzleNode.state, hb]⟩, ?_⟩
        rw [show neighborStates s = (get_neighbors (PuzzleNode.mk s none none 0 0 0) []).map PuzzleNode.state from rfl,
          gn_blank0 s none none 0 0 0 [] hb]
        simp [PuzzleNode.state]
    · rw [gn_blank1 s p mv g h f goal_state hb] at hnd
      simp only [List.mem_cons, List.not_mem_nil, or_false] at hnd
      rcases hnd with rfl | rfl | rfl
      · refine ⟨rfl, rfl, rfl, rfl, ⟨4, by decide, by rw [hb]; decide, by simp [PuzzleNode.state, hb]⟩, ?_⟩
        rw [show neighborStates s = (get_neighbors (PuzzleNode.mk s none none 0 0 0) []).map PuzzleNode.state from rfl,
          gn_blank1 s none none 0 0 0 [] hb]
        simp [PuzzleNode.state]
      · refine ⟨rfl, rfl, rfl, rfl, ⟨0, by decide, by rw [hb]; decide, by simp [PuzzleNode.state, hb]⟩, ?_⟩
        rw [show neighborStates s = (get_neighbors (PuzzleNode.mk s none none 0 0 0) []).map PuzzleNode.state from rfl,
          gn_blank1 s none none 0 0 0 [] hb]
        simp [PuzzleNode.state]
      · refine ⟨rfl, rfl, rfl, rfl, ⟨2, by decide, by rw [hb]; decide, by simp [PuzzleNode.state, hb]⟩, ?_⟩
        rw [show neighborStates s = (get_neighbors (PuzzleNode.mk s none none 0 0 0) []).map PuzzleNode.state from rfl,
          gn_blank1 s none none 0 0 0 [] hb]
        simp [PuzzleNode.state]
    · rw [gn_blank2 s p mv g h f goal_state hb] at hnd
      simp only [List.mem_cons, List.not_mem_nil, or_false] at hnd
      rcases hnd with rfl | rfl
      · refine ⟨rfl, rfl, rfl, rfl, ⟨5, by decide, by rw [hb]; decide, by simp [PuzzleNode.state, hb]⟩, ?_⟩
        rw [show neighborStates s = (get_neighbors (PuzzleNode.mk s none none 0 0 0) []).map PuzzleNode.state from rfl,
          gn_blank2 s none none 0 0 0 [] hb]
        simp [PuzzleNode.state]
      · refine ⟨rfl, rfl, rfl, rfl, ⟨1, by decide, by rw [hb]; decide, by simp [PuzzleNode.state, hb]⟩, ?_⟩
        rw [show neighborStates s = (get_neighbors (PuzzleNode.mk s none none 0 0 0) []).map PuzzleNode.state from rfl,
          gn_blank2 s none none 0 0 0 [] hb]
        simp [PuzzleNode.state]
    · rw [gn_blank3 s p mv g h f goal_state hb] at hnd
      simp only [List.mem_cons, List.not_mem_nil, or_false] at hnd
      rcases hnd with rfl | rfl | rfl
      · refine ⟨rfl, rfl, rfl, rfl, ⟨0, by decide, by rw [hb]; decide, by simp [PuzzleNode.state, hb]⟩, ?_⟩
        rw [show neighborStates s = (get_neighbors (PuzzleNode.mk s none none 0 0 0) []).map PuzzleNode.state from rfl,
          gn_blank3 s none none 0 0 0 [] hb]
        simp [PuzzleNode.state]
      · refine ⟨rfl, rfl, rfl, rfl, ⟨6, by decide, by rw [hb]; decide, by simp [PuzzleNode.state, hb]⟩, ?_⟩
        rw [show neighborStates s = (get_neighbors (PuzzleNode.mk s none none 0 0 0) []).map PuzzleNode.state from rfl,
          gn_blank3 s none none 0 0 0 [] hb]
        simp [PuzzleNode.state]
      · refine ⟨rfl, rfl, rfl, rfl, ⟨4, by decide, by rw [hb]; decide, by simp [PuzzleNode.state, hb]⟩, ?_⟩
        rw [show neighborStates s = (get_neighbors (PuzzleNode.mk s none none 0 0 0) []).map PuzzleNode.state from rfl,
          gn_blank3 s none none 0 0 0 [] hb]
        simp [PuzzleNode.state]
    · rw [gn_blank4 s p mv g h f goal_state hb] at hnd
      simp only [List.mem_cons, List.not_mem_nil, or_false] at hnd
      rcases hnd with rfl | rfl | rfl | rfl
      · refine ⟨rfl, rfl, rfl, rfl, ⟨1, by decide, by rw [hb]; decide, by simp [PuzzleNode.state, hb]⟩, ?_⟩
        rw [show neighborStates s = (get_neighbors (PuzzleNode.mk s none none 0 0 0) []).map PuzzleNode.state from rfl,
          gn_blank4 s none none 0 0 0 [] hb]
        simp [PuzzleNode.state]
      · refine ⟨rfl, rfl, rfl, rfl, ⟨7, by decide, by rw [hb]; decide, by simp [PuzzleNode.state, hb]⟩, ?_⟩
        rw [show neighborStates s = (get_neighbors (PuzzleNode.mk s none none 0 0 0) []).map PuzzleNode.state from rfl,
          gn_blank4 s none none 0 0 0 [] hb]
        simp [PuzzleNode.state]
      · refine ⟨rfl, rfl, rfl, rfl, ⟨3, by decide, by rw [hb]; decide, by simp [PuzzleNode.state, hb]⟩, ?_⟩
        rw [show neighborStates s = (get_neighbors (PuzzleNode.mk s none none 0 0 0) []).map PuzzleNode.state from rfl,
          gn_blank4 s none none 0 0 0 [] hb]
        simp [PuzzleNode.state]
      · refine ⟨rfl, rfl, rfl, rfl, ⟨5, by decide, by rw [hb]; decide, by simp [PuzzleNode.state, hb]⟩, ?_⟩
        rw [show neighborStates s = (get_neighbors (PuzzleNode.mk s none none 0 0 0) []).map PuzzleNode.state from rfl,
          gn_blank4 s none none 0 0 0 [] hb]
        simp [PuzzleNode.state]
    · rw [gn_blank5 s p mv g h f goal_state hb] at hnd
      simp only [List.mem_cons, List.not_mem_nil, or_false] at hnd
      rcases hnd with rfl | rfl | rfl
      · refine ⟨rfl, rfl, rfl, rfl, ⟨2, by decide, by rw [hb]; decide, by simp [PuzzleNode.state, hb]⟩, ?_⟩
        rw [show neighborStates s = (get_neighbors (PuzzleNode.mk s none none 0 0 0) []).map PuzzleNode.state from rfl,
          gn_blank5 s none none 0 0 0 [] hb]
        simp [PuzzleNode.state]
      · refine ⟨rfl, rfl, rfl, rfl, ⟨8, by decide, by rw [hb]; decide, by simp [PuzzleNode.state, hb]⟩, ?_⟩
        rw [show neighborStates s = (get_neighbors (PuzzleNode.mk s none none 0 0 0) []).map PuzzleNode.state from rfl,
          gn_blank5 s none none 0 0 0 [] hb]
        simp [PuzzleNode.state]
      · refine ⟨rfl, rfl, rfl, rfl, ⟨4, by decide, by rw [hb]; decide, by simp [PuzzleNode.state, hb]⟩, ?_⟩
        rw [show neighborStates s = (get_neighbors (PuzzleNode.mk s none none 0 0 0) []).map PuzzleNode.state from rfl,
          gn_blank5 s none none 0 0 0 [] hb]
        simp [PuzzleNode.state]
    · rw [gn_blank6 s p mv g h f goal_state hb] at hnd
      simp only [List.mem_cons, List.not_mem_nil, or_false] at hnd
      rcases hnd with rfl | rfl
      · refine ⟨rfl, rfl, rfl, rfl, ⟨3, by decide, by rw [hb]; decide, by simp [PuzzleNode.state, hb]⟩, ?_⟩
        rw [show neighborStates s = (get_neighbors (PuzzleNode.mk s none none 0 0 0) []).map PuzzleNode.state from rfl,
          gn_blank6 s none none 0 0 0 [] hb]
        simp [PuzzleNode.state]
      · refine ⟨rfl, rfl, rfl, rfl, ⟨7, by decide, by rw [hb]; decide, by simp [PuzzleNode.state, hb]⟩, ?_⟩
        rw [show neighborStates s = (get_neighbors (PuzzleNode.mk s none none 0 0 0) []).map PuzzleNode.state from rfl,
          gn_blank6 s none none 0 0 0 [] hb]
        simp [PuzzleNode.state]
    · rw [gn_blank7 s p mv g h f goal_state hb] at hnd
      simp only [List.mem_cons, List.not_mem_nil, or_false] at hnd
      rcases hnd with rfl | rfl | rfl
      · refine ⟨rfl, rfl, rfl, rfl, ⟨4, by decide, by rw [hb]; decide, by simp [PuzzleNode.state, hb]⟩, ?_⟩
        rw [show neighborStates s = (get_neighbors (PuzzleNode.mk s none none 0 0 0) []).map PuzzleNode.state from rfl,
          gn_blank7 s none none 0 0 0 [] hb]
        simp [PuzzleNode.state]
      · refine ⟨rfl, rfl, rfl, rfl, ⟨6, by decide, by rw [hb]; decide, by simp [PuzzleNode.state, hb]⟩, ?_⟩
        rw [show neighborStates s = (get_neighbors (PuzzleNode.mk s none none 0 0 0) []).map PuzzleNode.state from rfl,
          gn_blank7 s none none 0 0 0 [] hb]
        simp [PuzzleNode.state]
      · refine ⟨rfl, rfl, rfl, rfl, ⟨8, by decide, by rw [hb]; decide, by simp [PuzzleNode.state, hb]⟩, ?_⟩
        rw [show neighborStates s = (get_neighbors (PuzzleNode.mk s none none 0 0 0) []).map PuzzleNode.state from rfl,
          gn_blank7 s none none 0 0 0 [] hb]
        simp [PuzzleNode.state]
    · rw [gn_blank8 s p mv g h f goal_state hb] at hnd
      simp only [List.mem_cons, List.not_mem_nil, or_false] at hnd
      rcases hnd with rfl | rfl
      · refine ⟨rfl, rfl, rfl, rfl, ⟨5, by decide, by rw [hb]; decide, by simp [PuzzleNode.state, hb]⟩, ?_⟩
        rw [show neighborStates s = (get_neighbors (PuzzleNode.mk s none none 0 0 0) []).map PuzzleNode.state from rfl,
          gn_blank8 s none none 0 0 0 [] hb]
        simp [PuzzleNode.state]
      · refine ⟨rfl, rfl, rfl, rfl, ⟨7, by decide, by rw [hb]; decide, by simp [PuzzleNode.state, hb]⟩, ?_⟩
        rw [show neighborStates s = (get_neighbors (PuzzleNode.mk s none none 0 0 0) []).map PuzzleNode.state from rfl,
          gn_blank8 s none none 0 0 0 [] hb]
        simp [PuzzleNode.state]

/-- Neighbor generation preserves the permutation invariant. -/
theorem neighborStates_perm (S : List Nat) (hS : IsPerm S) :
    ∀ T ∈ neighborStates S, IsPerm T := by
  intro T hT
  have h9 := IsPerm.indexOf_zero_lt S hS
  have hlen : S.length = 9 := hS.length_eq.trans (by simp)
  obtain ⟨nd, hnd, rfl⟩ := List.mem_map.mp hT
  have hspec := gn_mem_spec (.mk S none none 0 0 0) []
    (by simpa [PuzzleNode.state] using h9) nd hnd
  obtain ⟨j, hj9, hdist, heq⟩ := hspec.2.2.2.2.1
  rw [heq]
  exact (swapCells_perm S (S.indexOf 0) j (by omega) (by omega)).trans hS

/-- Reachable configurations of a permutation are permutations. -/
theorem ReachN_perm {start : List Nat} (hs : IsPerm start) :
    ∀ {n : Nat} {t : List Nat}, ReachN start n t → IsPerm t := by
  intro n t h
  induction h with
  | refl => exact hs
  | tail hr hmem ih => exact neighborStates_perm _ ih _ hmem

/-- The guarded foldl of `calculate_manhattan_distance` is a sum of
per-position contributions. -/
theorem foldl_if_eq_sum (F : Nat × Nat → Nat) :
    ∀ (l : List (Nat × Nat)) (acc : Nat),
      l.foldl (fun a p => if p.2 = 0 then a else a + F p) acc =
        acc + (l.map (fun p => if p.2 = 0 then 0 else F p)).sum
  | [], acc => by simp
  | p :: rest, acc => by
    simp only [List.foldl_cons, List.map_cons, List.sum_cons]
    rw [foldl_if_eq_sum F rest]
    split <;> omega

/-- Manhattan distance as a sum over the enumerated state. -/
theorem manhattan_eq_mapsum (S G : List Nat) :
    calculate_manhattan_distance S G =
      ((S.enum).map (fun p => if p.2 = 0 then 0 else manhattanD p.1 (goalIndexD G p.2))).sum := by
  unfold calculate_manhattan_distance
  rw [foldl_if_eq_sum]
  omega

/-- Taxicab triangle inequality on cell indices (valid for all naturals). -/
theorem manhattanD_triangle (i j k : Nat) :
    manhattanD i k ≤ manhattanD i j + manhattanD j k := by
  unfold manhattanD
  have h1 : ((i : Int) / 3 - (k : Int) / 3).natAbs ≤
      ((i : Int) / 3 - (j : Int) / 3).natAbs + ((j : Int) / 3 - (k : Int) / 3).natAbs := by
    have := Int.natAbs_add_le ((i : Int) / 3 - (j : Int) / 3) ((j : Int) / 3 - (k : Int) / 3)
    simpa using this
  have h2 : ((i : Int) % 3 - (k : Int) % 3).natAbs ≤
      ((i : Int) % 3 - (j : Int) % 3).natAbs + ((j : Int) % 3 - (k : Int) % 3).natAbs := by
    have := Int.natAbs_add_le ((i : Int) % 3 - (j : Int) % 3) ((j : Int) % 3 - (k : Int) % 3)
    simpa using this
  omega

/-- The entry at the blank's index is 0. -/
theorem getD_indexOf_zero (l : List Nat) (h : l.indexOf 0 < l.length) :
    l.getD (l.indexOf 0) 0 = 0 := by
  rw [List.getD_eq_getElem l 0 h]
  exact List.getElem_indexOf h

/-- Every 9-element list is a 9-tuple. -/
theorem len9_destruct (S : List Nat) (h : S.length = 9) :
    ∃ a0 a1 a2 a3 a4 a5 a6 a7 a8, S = [a0, a1, a2, a3, a4, a5, a6, a7, a8] := by
  rcases S with _ | ⟨a0, _ | ⟨a1, _ | ⟨a2, _ | ⟨a3, _ | ⟨a4, _ | ⟨a5, _ | ⟨a6, _ |
    ⟨a7, _ | ⟨a8, _ | ⟨a9, t⟩⟩⟩⟩⟩⟩⟩⟩⟩⟩
  all_goals first
    | exact ⟨a0, a1, a2, a3, a4, a5, a6, a7, a8, rfl⟩
    | simp at h

/-- One sliding move changes the Manhattan heuristic by at most 1, in both
directions, for every goal list. -/
theorem manhattan_swap_le (S G T : List Nat) (hS9 : S.indexOf 0 < 9)
    (hlen : S.length = 9) (hT : T ∈ neighborStates S) :
    calculate_manhattan_distance S G ≤ 1 + calculate_manhattan_distance T G ∧
    calculate_manhattan_distance T G ≤ 1 + calculate_manhattan_distance S G := by
  obtain ⟨x0, x1, x2, x3, x4, x5, x6, x7, x8, rfl⟩ := len9_destruct S hlen
  have hsplit : [x0, x1, x2, x3, x4, x5, x6, x7, x8].indexOf 0 = 0 ∨
      [x0, x1, x2, x3, x4, x5, x6, x7, x8].indexOf 0 = 1 ∨
      [x0, x1, x2, x3, x4, x5, x6, x7, x8].indexOf 0 = 2 ∨
      [x0, x1, x2, x3, x4, x5, x6, x7, x8].indexOf 0 = 3 ∨
      [x0, x1, x2, x3, x4, x5, x6, x7, x8].indexOf 0 = 4 ∨
      [x0, x1, x2, x3, x4, x5, x6, x7, x8].indexOf 0 = 5 ∨
      [x0, x1, x2, x3, x4, x5, x6, x7, x8].indexOf 0 = 6 ∨
      [x0, x1, x2, x3, x4, x5, x6, x7, x8].indexOf 0 = 7 ∨
      [x0, x1, x2, x3, x4, x5, x6, x7, x8].indexOf 0 = 8 := by omega
  rcases hsplit with hb | hb | hb | hb | hb | hb | hb | hb | hb
  · have hb0 : x0 = 0 := by
      have hg := getD_indexOf_zero [x0, x1, x2, x3, x4, x5, x6, x7, x8] (by rw [hb]; simp)
      rw [hb] at hg
      simpa using hg
    subst hb0
    unfold neighborStates at hT
    rw [gn_blank0 _ none none 0 0 0 [] hb] at hT
    simp only [List.map_cons, List.map_nil, PuzzleNode.state, List.mem_cons,
      List.not_mem_nil, or_false] at hT
    rcases hT with rfl | rfl
    · refine ⟨?_, ?_⟩ <;>
        (rw [manhattan_eq_mapsum, manhattan_eq_mapsum]
         have t1 := manhattanD_triangle 3 0 (goalIndexD G x3)
         have t2 := manhattanD_triangle 0 3 (goalIndexD G x3)
         have e1 : manhattanD 3 0 = 1 := by decide
         have e2 : manhattanD 0 3 = 1 := by decide
         simp [swapCells, List.set, List.getD, List.get?, List.enum, List.enumFrom]
         all_goals rcases eq_or_ne x3 0 with h0 | h0
         all_goals (first | (simp [h0] <;> omega) | omega))
    · refine ⟨?_, ?_⟩ <;>
        (rw [manhattan_eq_mapsum, manhattan_eq_mapsum]
         have t1 := manhattanD_triangle 1 0 (goalIndexD G x1)
         have t2 := manhattanD_triangle 0 1 (goalIndexD G x1)
         have e1 : manhattanD 1 0 = 1 := by decide
         have e2 : manhattanD 0 1 = 1 := by decide
         simp [swapCells, List.set, List.getD, List.get?, List.enum, List.enumFrom]
         all_goals rcases eq_or_ne x1 0 with h0 | h0
         all_goals (first | (simp [h0] <;> omega) | omega))
  · have hb0 : x1 = 0 := by
      have hg := getD_indexOf_zero [x0, x1, x2, x3, x4, x5, x6, x7, x8] (by rw [hb]; simp)
      rw [hb] at hg
      simpa using hg
    subst hb0
    unfold neighborStates at hT
    rw [gn_blank1 _ none none 0 0 0 [] hb] at hT
    simp only [List.map_cons, List.map_nil, PuzzleNode.state, List.mem_cons,
      List.not_mem_nil, or_false] at hT
    rcases hT with rfl | rfl | rfl
    · refine ⟨?_, ?_⟩ <;>
        (rw [manhattan_eq_mapsum, manhattan_eq_mapsum]
         have t1 := manhattanD_triangle 4 1 (goalIndexD G x4)
         have t2 := manhattanD_triangle 1 4 (goalIndexD G x4)
         have e1 : manhattanD 4 1 = 1 := by decide
         have e2 : manhattanD 1 4 = 1 := by decide
         simp [swapCells, List.set, List.getD, List.get?, List.enum, List.enumFrom]
         all_goals rcases eq_or_ne x4 0 with h0 | h0
         all_goals (first | (simp [h0] <;> omega) | omega))
    · refine ⟨?_, ?_⟩ <;>
        (rw [manhattan_eq_mapsum, manhattan_eq_mapsum]
         have t1 := manhattanD_triangle 0 1 (goalIndexD G x0)
         have t2 := manhattanD_triangle 1 0 (goalIndexD G x0)
         have e1 : manhattanD 0 1 = 1 := by decide
         have e2 : manhattanD 1 0 = 1 := by decide
         simp [swapCells, List.set, List.getD, List.get?, List.enum, List.enumFrom]
         all_goals rcases eq_or_ne x0 0 with h0 | h0
         all_goals (first | (simp [h0] <;> omega) | omega))
    · refine ⟨?_, ?_⟩ <;>
        (rw [manhattan_eq_mapsum, manhattan_eq_mapsum]
         have t1 := manhattanD_triangle 2 1 (goalIndexD G x2)
         have t2 := manhattanD_triangle 1 2 (goalIndexD G x2)
         have e1 : manhattanD 2 1 = 1 := by decide
         have e2 : manhattanD 1 2 = 1 := by decide
         simp [swapCells, List.set, List.getD, List.get?, List.enum, List.enumFrom]
         all_goals rcases eq_or_ne x2 0 with h0 | h0
         all_goals (first | (simp [h0] <;> omega) | omega))
  · have hb0 : x2 = 0 := by
      have hg := getD_indexOf_zero [x0, x1, x2, x3, x4, x5, x6, x7, x8] (by rw [hb]; simp)
      rw [hb] at hg
      simpa using hg
    subst hb0
    unfold neighborStates at hT
    rw [gn_blank2 _ none none 0 0 0 [] hb] at hT
    simp only [List.map_cons, List.map_nil, PuzzleNode.state, List.mem_cons,
      List.not_mem_nil, or_false] at hT
    rcases hT with rfl | rfl
    · refine ⟨?_, ?_⟩ <;>
        (rw [manhattan_eq_mapsum, manhattan_eq_mapsum]
         have t1 := manhattanD_triangle 5 2 (goalIndexD G x5)
         have t2 := manhattanD_triangle 2 5 (goalIndexD G x5)
         have e1 : manhattanD 5 2 = 1 := by decide
         have e2 : manhattanD 2 5 = 1 := by decide
         simp [swapCells, List.set, List.getD, List.get?, List.enum, List.enumFrom]
         all_goals rcases eq_or_ne x5 0 with h0 | h0
         all_goals (first | (simp [h0] <;> omega) | omega))
    · refine ⟨?_, ?_⟩ <;>
        (rw [manhattan_eq_mapsum, manhattan_eq_mapsum]
         have t1 := manhattanD_triangle 1 2 (goalIndexD G x1)
         have t2 := manhattanD_triangle 2 1 (goalIndexD G x1)
         have e1 : manhattanD 1 2 = 1 := by decide
         have e2 : manhattanD 2 1 = 1 := by decide
         simp [swapCells, List.set, List.getD, List.get?, List.enum, List.enumFrom]
         all_goals rcases eq_or_ne x1 0 with h0 | h0
         all_goals (first | (simp [h0] <;> omega) | omega))
  · have hb0 : x3 = 0 := by
      have hg := getD_indexOf_zero [x0, x1, x2, x3, x4, x5, x6, x7, x8] (by rw [hb]; simp)
      rw [hb] at hg
      simpa using hg
    subst hb0
    unfold neighborStates at hT
    rw [gn_blank3 _ none none 0 0 0 [] hb] at hT
    simp only [List.map_cons, List.map_nil, PuzzleNode.state, List.mem_cons,
      List.not_mem_nil, or_false] at hT
    rcases hT with rfl | rfl | rfl
    · refine ⟨?_, ?_⟩ <;>
        (rw [manhattan_eq_mapsum, manhattan_eq_mapsum]
         have t1 := manhattanD_triangle 0 3 (goalIndexD G x0)
         have t2 := manhattanD_triangle 3 0 (goalIndexD G x0)
         have e1 : manhattanD 0 3 = 1 := by decide
         have e2 : manhattanD 3 0 = 1 := by decide
         simp [swapCells, List.set, List.getD, List.get?, List.enum, List.enumFrom]
         all_goals rcases eq_or_ne x0 0 with h0 | h0
         all_goals (first | (simp [h0] <;> omega) | omega))
    · refine ⟨?_, ?_⟩ <;>
        (rw [manhattan_eq_mapsum, manhattan_eq_mapsum]
         have t1 := manhattanD_triangle 6 3 (goalIndexD G x6)
         have t2 := manhattanD_triangle 3 6 (goalIndexD G x6)
         have e1 : manhattanD 6 3 = 1 := by decide
         have e2 : manhattanD 3 6 = 1 := by decide
         simp [swapCells, List.set, List.getD, List.get?, List.enum, List.enumFrom]
         all_goals rcases eq_or_ne x6 0 with h0 | h0
         all_goals (first | (simp [h0] <;> omega) | omega))
    · refine ⟨?_, ?_⟩ <;>
        (rw [manhattan_eq_mapsum, manhattan_eq_mapsum]
         have t1 := manhattanD_triangle 4 3 (goalIndexD G x4)
         have t2 := manhattanD_triangle 3 4 (goalIndexD G x4)
         have e1 : manhattanD 4 3 = 1 := by decide
         have e2 : manhattanD 3 4 = 1 := by decide
         simp [swapCells, List.set, List.getD, List.get?, List.enum, List.enumFrom]
         all_goals rcases eq_or_ne x4 0 with h0 | h0
         all_goals (first | (simp [h0] <;> omega) | omega))
  · have hb0 : x4 = 0 := by
      have hg := getD_indexOf_zero [x0, x1, x2, x3, x4, x5, x6, x7, x8] (by rw [hb]; simp)
      rw [hb] at hg
      simpa using hg
    subst hb0
    unfold neighborStates at hT
    rw [gn_blank4 _ none none 0 0 0 [] hb] at hT
    simp only [List.map_cons, List.map_nil, PuzzleNode.state, List.mem_cons,
      List.not_mem_nil, or_false] at hT
    rcases hT with rfl | rfl | rfl | rfl
    · refine ⟨?_, ?_⟩ <;>
        (rw [manhattan_eq_mapsum, manhattan_eq_mapsum]
         have t1 := manhattanD_triangle 1 4 (goalIndexD G x1)
         have t2 := manhattanD_triangle 4 1 (goalIndexD G x1)
         have e1 : manhattanD 1 4 = 1 := by decide
         have e2 : manhattanD 4 1 = 1 := by decide
         simp [swapCells, List.set, List.getD, List.get?, List.enum, List.enumFrom]
         all_goals rcases eq_or_ne x1 0 with h0 | h0
         all_goals (first | (simp [h0] <;> omega) | omega))
    · refine ⟨?_, ?_⟩ <;>
        (rw [manhattan_eq_mapsum, manhattan_eq_mapsum]
         have t1 := manhattanD_triangle 7 4 (goalIndexD G x7)
         have t2 := manhattanD_triangle 4 7 (goalIndexD G x7)
         have e1 : manhattanD 7 4 = 1 := by decide
         have e2 : manhattanD 4 7 = 1 := by decide
         simp [swapCells, List.set, List.getD, List.get?, List.enum, List.enumFrom]
         all_goals rcases eq_or_ne x7 0 with h0 | h0
         all_goals (first | (simp [h0] <;> omega) | omega))
    · refine ⟨?_, ?_⟩ <;>
        (rw [manhattan_eq_mapsum, manhattan_eq_mapsum]
         have t1 := manhattanD_triangle 3 4 (goalIndexD G x3)
         have t2 := manhattanD_triangle 4 3 (goalIndexD G x3)
         have e1 : manhattanD 3 4 = 1 := by decide
         have e2 : manhattanD 4 3 = 1 := by decide
         simp [swapCells, List.set, List.getD, List.get?, List.enum, List.enumFrom]
         all_goals rcases eq_or_ne x3 0 with h0 | h0
         all_goals (first | (simp [h0] <;> omega) | omega))
    · refine ⟨?_, ?_⟩ <;>
        (rw [manhattan_eq_mapsum, manhattan_eq_mapsum]
         have t1 := manhattanD_triangle 5 4 (goalIndexD G x5)
         have t2 := manhattanD_triangle 4 5 (goalIndexD G x5)
         have e1 : manhattanD 5 4 = 1 := by decide
         have e2 : manhattanD 4 5 = 1 := by decide
         simp [swapCells, List.set, List.getD, List.get?, List.enum, List.enumFrom]
         all_goals rcases eq_or_ne x5 0 with h0 | h0
         all_goals (first | (simp [h0] <;> omega) | omega))
  · have hb0 : x5 = 0 := by
      have hg := getD_indexOf_zero [x0, x1, x2, x3, x4, x5, x6, x7, x8] (by rw [hb]; simp)
      rw [hb] at hg
      simpa using hg
    subst hb0
    unfold neighborStates at hT
    rw [gn_blank5 _ none none 0 0 0 [] hb] at hT
    simp only [List.map_cons, List.map_nil, PuzzleNode.state, List.mem_cons,
      List.not_mem_nil, or_false] at hT
    rcases hT with rfl | rfl | rfl
    · refine ⟨?_, ?_⟩ <;>
        (rw [manhattan_eq_mapsum, manhattan_eq_mapsum]
         have t1 := manhattanD_triangle 2 5 (goalIndexD G x2)
         have t2 := manhattanD_triangle 5 2 (goalIndexD G x2)
         have e1 : manhattanD 2 5 = 1 := by decide
         have e2 : manhattanD 5 2 = 1 := by decide
         simp [swapCells, List.set, List.getD, List.get?, List.enum, List.enumFrom]
         all_goals rcases eq_or_ne x2 0 with h0 | h0
         all_goals (first | (simp [h0] <;> omega) | omega))
    · refine ⟨?_, ?_⟩ <;>
        (rw [manhattan_eq_mapsum, manhattan_eq_mapsum]
         have t1 := manhattanD_triangle 8 5 (goalIndexD G x8)
         have t2 := manhattanD_triangle 5 8 (goalIndexD G x8)
         have e1 : manhattanD 8 5 = 1 := by decide
         have e2 : manhattanD 5 8 = 1 := by decide
         simp [swapCells, List.set, List.getD, List.get?, List.enum, List.enumFrom]
         all_goals rcases eq_or_ne x8 0 with h0 | h0
         all_goals (first | (simp [h0] <;> omega) | omega))
    · refine ⟨?_, ?_⟩ <;>
        (rw [manhattan_eq_mapsum, manhattan_eq_mapsum]
         have t1 := manhattanD_triangle 4 5 (goalIndexD G x4)
         have t2 := manhattanD_triangle 5 4 (goalIndexD G x4)
         have e1 : manhattanD 4 5 = 1 := by decide
         have e2 : manhattanD 5 4 = 1 := by decide
         simp [swapCells, List.set, List.getD, List.get?, List.enum, List.enumFrom]
         all_goals rcases eq_or_ne x4 0 with h0 | h0
         all_goals (first | (simp [h0] <;> omega) | omega))
  · have hb0 : x6 = 0 := by
      have hg := getD_indexOf_zero [x0, x1, x2, x3, x4, x5, x6, x7, x8] (by rw [hb]; simp)
      rw [hb] at hg
      simpa using hg
    subst hb0
    unfold neighborStates at hT
    rw [gn_blank6 _ none none 0 0 0 [] hb] at hT
    simp only [List.map_cons, List.map_nil, PuzzleNode.state, List.mem_cons,
      List.not_mem_nil, or_false] at hT
    rcases hT with rfl | rfl
    · refine ⟨?_, ?_⟩ <;>
        (rw [manhattan_eq_mapsum, manhattan_eq_mapsum]
         have t1 := manhattanD_triangle 3 6 (goalIndexD G x3)
         have t2 := manhattanD_triangle 6 3 (goalIndexD G x3)
         have e1 : manhattanD 3 6 = 1 := by decide
         have e2 : manhattanD 6 3 = 1 := by decide
         simp [swapCells, List.set, List.getD, List.get?, List.enum, List.enumFrom]
         all_goals rcases eq_or_ne x3 0 with h0 | h0
         all_goals (first | (simp [h0] <;> omega) | omega))
    · refine ⟨?_, ?_⟩ <;>
        (rw [manhattan_eq_mapsum, manhattan_eq_mapsum]
         have t1 := manhattanD_triangle 7 6 (goalIndexD G x7)
         have t2 := manhattanD_triangle 6 7 (goalIndexD G x7)
         have e1 : manhattanD 7 6 = 1 := by decide
         have e2 : manhattanD 6 7 = 1 := by decide
         simp [swapCells, List.set, List.getD, List.get?, List.enum, List.enumFrom]
         all_goals rcases eq_or_ne x7 0 with h0 | h0
         all_goals (first | (simp [h0] <;> omega) | omega))
  · have hb0 : x7 = 0 := by
      have hg := getD_indexOf_zero [x0, x1, x2, x3, x4, x5, x6, x7, x8] (by rw [hb]; simp)
      rw [hb] at hg
      simpa using hg
    subst hb0
    unfold neighborStates at hT
    rw [gn_blank7 _ none none 0 0 0 [] hb] at hT
    simp only [List.map_cons, List.map_nil, PuzzleNode.state, List.mem_cons,
      List.not_mem_nil, or_false] at hT
    rcases hT with rfl | rfl | rfl
    · refine ⟨?_, ?_⟩ <;>
        (rw [manhattan_eq_mapsum, manhattan_eq_mapsum]
         have t1 := manhattanD_triangle 4 7 (goalIndexD G x4)
         have t2 := manhattanD_triangle 7 4 (goalIndexD G x4)
         have e1 : manhattanD 4 7 = 1 := by decide
         have e2 : manhattanD 7 4 = 1 := by decide
         simp [swapCells, List.set, List.getD, List.get?, List.enum, List.enumFrom]
         all_goals rcases eq_or_ne x4 0 with h0 | h0
         all_goals (first | (simp [h0] <;> omega) | omega))
    · refine ⟨?_, ?_⟩ <;>
        (rw [manhattan_eq_mapsum, manhattan_eq_mapsum]
         have t1 := manhattanD_triangle 6 7 (goalIndexD G x6)
         have t2 := manhattanD_triangle 7 6 (goalIndexD G x6)
         have e1 : manhattanD 6 7 = 1 := by decide
         have e2 : manhattanD 7 6 = 1 := by decide
         simp [swapCells, List.set, List.getD, List.get?, List.enum, List.enumFrom]
         all_goals rcases eq_or_ne x6 0 with h0 | h0
         all_goals (first | (simp [h0] <;> omega) | omega))
    · refine ⟨?_, ?_⟩ <;>
        (rw [manhattan_eq_mapsum, manhattan_eq_mapsum]
         have t1 := manhattanD_triangle 8 7 (goalIndexD G x8)
         have t2 := manhattanD_triangle 7 8 (goalIndexD G x8)
         have e1 : manhattanD 8 7 = 1 := by decide
         have e2 : manhattanD 7 8 = 1 := by decide
         simp [swapCells, List.set, List.getD, List.get?, List.enum, List.enumFrom]
         all_goals rcases eq_or_ne x8 0 with h0 | h0
         all_goals (first | (simp [h0] <;> omega) | omega))
  · have hb0 : x8 = 0 := by
      have hg := getD_indexOf_zero [x0, x1, x2, x3, x4, x5, x6, x7, x8] (by rw [hb]; simp)
      rw [hb] at hg
      simpa using hg
    subst hb0
    unfold neighborStates at hT
    rw [gn_blank8 _ none none 0 0 0 [] hb] at hT
    simp only [List.map_cons, List.map_nil, PuzzleNode.state, List.mem_cons,
      List.not_mem_nil, or_false] at hT
    rcases hT with rfl | rfl
    · refine ⟨?_, ?_⟩ <;>
        (rw [manhattan_eq_mapsum, manhattan_eq_mapsum]
         have t1 := manhattanD_triangle 5 8 (goalIndexD G x5)
         have t2 := manhattanD_triangle 8 5 (goalIndexD G x5)
         have e1 : manhattanD 5 8 = 1 := by decide
         have e2 : manhattanD 8 5 = 1 := by decide
         simp [swapCells, List.set, List.getD, List.get?, List.enum, List.enumFrom]
         all_goals rcases eq_or_ne x5 0 with h0 | h0
         all_goals (first | (simp [h0] <;> omega) | omega))
    · refine ⟨?_, ?_⟩ <;>
        (rw [manhattan_eq_mapsum, manhattan_eq_mapsum]
         have t1 := manhattanD_triangle 7 8 (goalIndexD G x7)
         have t2 := manhattanD_triangle 8 7 (goalIndexD G x7)
         have e1 : manhattanD 7 8 = 1 := by decide
         have e2 : manhattanD 8 7 = 1 := by decide
         simp [swapCells, List.set, List.getD, List.get?, List.enum, List.enumFrom]
         all_goals rcases eq_or_ne x7 0 with h0 | h0
         all_goals (first | (simp [h0] <;> omega) | omega))

/-- C8: the Manhattan heuristic is consistent: for every permutation S,
every goal permutation G, and every S' produced by neighbors(S),
`manhattan S G ≤ 1 + manhattan S' G`; symmetrically each move changes the
heuristic value by at most 1. -/
theorem C8_manhattan_consistent (S G S' : List Nat) (hS : IsPerm S) (_hG : IsPerm G)
    (hS' : S' ∈ neighborStates S) :
    calculate_manhattan_distance S G ≤ 1 + calculate_manhattan_distance S' G ∧
    calculate_manhattan_distance S' G ≤ 1 + calculate_manhattan_distance S G :=
  manhattan_swap_le S G S' (IsPerm.indexOf_zero_lt S hS)
    (hS.length_eq.trans (by simp)) hS'

/-- Witness for C8 at the canonical goal and its UP-neighbor. -/
theorem C8_witness :
    calculate_manhattan_distance GOAL_STATE GOAL_STATE ≤
      1 + calculate_manhattan_distance [1, 2, 3, 4, 5, 0, 7, 8, 6] GOAL_STATE :=
  (C8_manhattan_consistent GOAL_STATE GOAL_STATE [1, 2, 3, 4, 5, 0, 7, 8, 6]
    (by decide) (by decide) (by decide)).1

/-! ## Parent-chain validity -/

/-- The parent chain of a node is a genuine walk from the root `start`:
the root carries `g_cost = 0` and state `start`, and every child's state
is a neighbor of its parent's state with `g_cost` one larger. -/
def chainOk (start : List Nat) : PuzzleNode → Prop
  | .mk s p _ g _ _ =>
    match p with
    | none => s = start ∧ g = 0
    | some q => chainOk start q ∧ s ∈ neighborStates q.state ∧ g = q.g_cost + 1

/-- Reconstructed paths are never empty. -/
theorem reconstruct_path_ne_nil (n : PuzzleNode) : reconstruct_path n ≠ [] := by
  cases n with
  | mk s p mv g h f => cases p <;> simp [reconstruct_path]

/-- The reconstructed path ends at the node's own state. -/
theorem reconstruct_path_last (n : PuzzleNode) :
    (reconstruct_path n).getLast? = some n.state := by
  cases n with
  | mk s p mv g h f => cases p <;> simp [reconstruct_path, PuzzleNode.state]

/-- A chain-valid node's state is reachable in `g_cost` moves. -/
theorem chainOk_reach (start : List Nat) :
    ∀ (n : PuzzleNode), chainOk start n → ReachN start n.g_cost n.state
  | .mk s none mv g h f, hc => by
    obtain ⟨rfl, rfl⟩ := hc
    simp only [PuzzleNode.state, PuzzleNode.g_cost]
    exact ReachN.refl
  | .mk s (some q) mv g h f, hc => by
    obtain ⟨hq, hmem, hg⟩ := hc
    have ih := chainOk_reach start q hq
    simp only [PuzzleNode.state, PuzzleNode.g_cost, hg]
    exact ReachN.tail ih hmem

/-- The reconstructed path of a chain-valid node begins at the root. -/
theorem chainOk_head (start : List Nat) :
    ∀ (n : PuzzleNode), chainOk start n → (reconstruct_path n).head? = some start
  | .mk s none mv g h f, hc => by
    obtain ⟨rfl, rfl⟩ := hc
    simp [reconstruct_path]
  | .mk s (some q) mv g h f, hc => by
    obtain ⟨hq, _, _⟩ := hc
    have ih := chainOk_head start q hq
    simp [reconstruct_path, List.head?_append, ih]

/-- The reconstructed path has `g_cost + 1` entries for chain-valid
nodes. -/
theorem chainOk_length (start : List Nat) :
    ∀ (n : PuzzleNode), chainOk start n → (reconstruct_path n).length = n.g_cost + 1
  | .mk s none mv g h f, hc => by
    obtain ⟨rfl, rfl⟩ := hc
    simp [reconstruct_path, PuzzleNode.g_cost]
  | .mk s (some q) mv g h f, hc => by
    obtain ⟨hq, _, hg⟩ := hc
    have ih := chainOk_length start q hq
    simp only [reconstruct_path, List.length_append, ih, PuzzleNode.g_cost, hg]
    simp

/-- Consecutive entries of a reconstructed path are neighbor steps. -/
theorem chainOk_chain (start : List Nat) :
    ∀ (n : PuzzleNode), chainOk start n →
      (reconstruct_path n).Chain' (fun a b => b ∈ neighborStates a)
  | .mk s none mv g h f, _ => by
    simp [reconstruct_path]
  | .mk s (some q) mv g h f, hc => by
    obtain ⟨hq, hmem, _⟩ := hc
    have ih := chainOk_chain start q hq
    simp only [reconstruct_path]
    refine List.chain'_append.mpr ⟨ih, by simp, ?_⟩
    intro x hx y hy
    simp only [List.head?_cons, Option.mem_def, Option.some_inj] at hy
    rw [reconstruct_path_last q] at hx
    simp only [Option.mem_def, Option.some_inj] at hx
    subst hx
    subst hy
    exact hmem

/-! ## Frontier pop lemmas -/

/-- `entryLe` is reflexive. -/
theorem entryLe_refl (a : Nat × Nat × PuzzleNode) : entryLe a a := by
  unfold entryLe
  omega

/-- `entryLe` is total. -/
theorem entryLe_of_not (a b : Nat × Nat × PuzzleNode) (h : ¬ entryLe a b) : entryLe b a := by
  unfold entryLe at *
  omega

/-- `entryLe` is transitive. -/
theorem entryLe_trans {a b c : Nat × Nat × PuzzleNode}
    (h1 : entryLe a b) (h2 : entryLe b c) : entryLe a c := by
  unfold entryLe at *
  omega

/-- `popMin` yields `none` exactly on the empty frontier. -/
theorem popMin_eq_none {l : List (Nat × Nat × PuzzleNode)} :
    popMin l = none ↔ l = [] := by
  cases l with
  | nil => simp [popMin]
  | cons e es =>
    simp only [popMin]
    cases popMin es <;> simp only []
    · simp
    · split <;> simp

/-- The extracted entry together with the rest is a permutation of the
frontier. -/
theorem popMin_perm :
    ∀ {l : List (Nat × Nat × PuzzleNode)} {e rest},
      popMin l = some (e, rest) → l.Perm (e :: rest)
  | [], e, rest => by simp [popMin]
  | x :: xs, e, rest => by
    simp only [popMin]
    cases hm : popMin xs with
    | none =>
      intro h
      cases h
      rw [popMin_eq_none.mp hm]
    | some pr =>
      obtain ⟨m, rest2⟩ := pr
      have ihp := popMin_perm hm
      dsimp only
      by_cases hle : entryLe x m
      · rw [if_pos hle]
        intro h
        cases h
        exact List.Perm.refl _
      · rw [if_neg hle]
        intro h
        cases h
        exact (List.Perm.cons x ihp).trans (List.Perm.swap e x rest2)

/-- The extracted entry has the least `(f_cost, unique_id)` key of the
frontier. -/
theorem popMin_min :
    ∀ {l : List (Nat × Nat × PuzzleNode)} {e rest},
      popMin l = some (e, rest) → ∀ x ∈ l, entryLe e x
  | [], e, rest => by simp [popMin]
  | x :: xs, e, rest => by
    simp only [popMin]
    cases hm : popMin xs with
    | none =>
      intro h
      cases h
      have hxs := popMin_eq_none.mp hm
      subst hxs
      intro y hy
      simp only [List.mem_singleton] at hy
      subst hy
      exact entryLe_refl y
    | some pr =>
      obtain ⟨m, rest2⟩ := pr
      have ihm := popMin_min hm
      dsimp only
      by_cases hle : entryLe x m
      · rw [if_pos hle]
        intro h
        cases h
        intro y hy
        rcases List.mem_cons.mp hy with rfl | hy
        · exact entryLe_refl y
        · exact entryLe_trans hle (ihm y hy)
      · rw [if_neg hle]
        intro h
        cases h
        intro y hy
        rcases List.mem_cons.mp hy with rfl | hy
        · exact entryLe_of_not _ _ hle
        · exact ihm y hy

/-- Foldl preserves a predicate that every step preserves. -/
theorem foldl_preserve {α σ : Type} (P : σ → Prop) (f : σ → α → σ) :
    ∀ (l : List α) (s : σ), P s → (∀ s' a, a ∈ l → P s' → P (f s' a)) →
      P (l.foldl f s)
  | [], s, hs, _ => hs
  | a :: rest, s, hs, hstep => by
    simp only [List.foldl_cons]
    exact foldl_preserve P f rest (f s a) (hstep s a (by simp) hs)
      (fun s' b hb => hstep s' b (by simp [hb]))

/-! ## The node-validity invariant of the loop -/

/-- Everything that is true of every frontier entry: the key equals the
node's `f_cost`, the costs are consistent with the heuristic, the state is
a permutation, and the parent chain is a genuine walk from `start`. -/
def entryOk (start goal : List Nat) (e : Nat × Nat × PuzzleNode) : Prop :=
  chainOk start e.2.2 ∧ IsPerm e.2.2.state ∧
  e.2.2.h_cost = calculate_manhattan_distance e.2.2.state goal ∧
  e.2.2.f_cost = e.2.2.g_cost + e.2.2.h_cost ∧
  e.1 = e.2.2.f_cost

/-- A node assembled from a popped parent and one of its generated
neighbors is chain-valid. -/
theorem chainOk_child (start : List Nat) (cur nb : PuzzleNode)
    (hp : nb.parent = some cur) (hmem : nb.state ∈ neighborStates cur.state)
    (hg : nb.g_cost = cur.g_cost + 1) (hcur : chainOk start cur) :
    chainOk start nb := by
  cases nb with
  | mk s p mv g h f =>
    simp only [PuzzleNode.parent] at hp
    simp only [PuzzleNode.state, PuzzleNode.g_cost] at hmem hg
    subst hp
    exact ⟨hcur, hmem, hg⟩

/-- `pushNeighbor` preserves entry validity, given a valid popped
parent. -/
theorem pushNeighbor_entryOk (start goal : List Nat) (cur : PuzzleNode)
    (hcur : chainOk start cur) (hperm : IsPerm cur.state)
    (s : SearchState) (nb : PuzzleNode) (hnb : nb ∈ get_neighbors cur goal)
    (hs : ∀ e ∈ s.open_set, entryOk start goal e) :
    ∀ e ∈ (pushNeighbor s nb).open_set, entryOk start goal e := by
  have hspec := gn_mem_spec cur goal (IsPerm.indexOf_zero_lt _ hperm) nb hnb
  unfold pushNeighbor
  split
  · exact hs
  · split
    · exact hs
    · intro e he
      simp only [List.mem_append, List.mem_singleton] at he
      rcases he with he | rfl
      · exact hs e he
      · refine ⟨chainOk_child start cur nb hspec.1 hspec.2.2.2.2.2 hspec.2.1 hcur,
          neighborStates_perm cur.state hperm nb.state hspec.2.2.2.2.2,
          hspec.2.2.1, ?_, rfl⟩
        rw [hspec.2.2.2.1, hspec.2.1]

/-- One non-terminating loop iteration preserves the invariant for the
folded state. -/
theorem NodesInv_fold (start goal : List Nat) (cur : PuzzleNode)
    (hcur : chainOk start cur) (hperm : IsPerm cur.state) (st : SearchState)
    (hst : ∀ e ∈ st.open_set, entryOk start goal e) :
    ∀ e ∈ ((get_neighbors cur goal).foldl pushNeighbor st).open_set,
      entryOk start goal e := by
  exact foldl_preserve (fun s => ∀ e ∈ s.open_set, entryOk start goal e)
    pushNeighbor (get_neighbors cur goal) st hst
    (fun s' nb hnb hP => pushNeighbor_entryOk start goal cur hcur hperm s' nb hnb hP)

/-- Whenever the loop returns Solved, the reported path is the
reconstruction of a chain-valid goal node and the reported move count is
that node's `g_cost`. -/
theorem solveLoop_solved_spec (start goal : List Nat) :
    ∀ (fuel : Nat) (st : SearchState),
      (∀ e ∈ st.open_set, entryOk start goal e) →
      ∀ (path : List (List Nat)) (m ex : Nat) (st2 : SearchState),
        solveLoop goal st fuel = (.solved path m ex, st2) →
        ∃ nd : PuzzleNode, chainOk start nd ∧ IsPerm nd.state ∧ nd.state = goal ∧
          path = reconstruct_path nd ∧ m = nd.g_cost := by
  intro fuel
  induction fuel with
  | zero =>
    intro st hinv path m ex st2 h
    simp [solveLoop] at h
  | succ n ih =>
    intro st hinv path m ex st2 h
    rw [solveLoop] at h
    cases hp : popMin st.open_set with
    | none =>
      rw [hp] at h
      simp at h
    | some pr =>
      obtain ⟨e, rest⟩ := pr
      rw [hp] at h
      dsimp only at h
      have hmem : e ∈ st.open_set := (popMin_perm hp).mem_iff.mpr (by simp)
      by_cases hgoal : e.2.2.state = goal
      · rw [if_pos hgoal] at h
        cases h
        obtain ⟨hch, hperm, _, _, _⟩ := hinv e hmem
        exact ⟨e.2.2, hch, hperm, hgoal, rfl, rfl⟩
      · rw [if_neg hgoal] at h
        obtain ⟨hch, hperm, _, _, _⟩ := hinv e hmem
        refine ih _ ?_ path m ex st2 h
        refine NodesInv_fold start goal e.2.2 hch hperm _ ?_
        intro x hx
        exact hinv x ((popMin_perm hp).mem_iff.mpr (List.mem_cons_of_mem e hx))

/-- A neighbor state of a permutation is an adjacent blank swap of it. -/
theorem neighborStates_adjSwap (S T : List Nat) (hS : IsPerm S)
    (hT : T ∈ neighborStates S) : IsAdjacentBlankSwap S T := by
  have h9 := IsPerm.indexOf_zero_lt S hS
  obtain ⟨nd, hnd, rfl⟩ := List.mem_map.mp hT
  have hspec := gn_mem_spec (.mk S none none 0 0 0) []
    (by simpa [PuzzleNode.state] using h9) nd hnd
  exact hspec.2.2.2.2.1

/-- A neighbor chain out of a permutation is a chain of adjacent blank
swaps through permutations. -/
theorem chain_neighbor_adj :
    ∀ (p : List (List Nat)), p.Chain' (fun a b => b ∈ neighborStates a) →
      (∀ x ∈ p.head?, IsPerm x) →
      p.Chain' IsAdjacentBlankSwap ∧ ∀ c ∈ p, IsPerm c
  | [], _, _ => by simp
  | [a], _, hh => by
    have ha : IsPerm a := hh a (by simp)
    simp [ha]
  | a :: b :: t, hchain, hh => by
    have ha : IsPerm a := hh a (by simp)
    obtain ⟨hab, htail⟩ := List.chain'_cons.mp hchain
    have hb : IsPerm b := neighborStates_perm a ha b hab
    obtain ⟨ih1, ih2⟩ := chain_neighbor_adj (b :: t) htail (by simpa using hb)
    refine ⟨List.chain'_cons.mpr ⟨neighborStates_adjSwap a b ha hab, ih1⟩, ?_⟩
    intro c hc
    rcases List.mem_cons.mp hc with rfl | hc
    · exact ha
    · exact ih2 c hc

/-- Whenever `solve_puzzle` returns Solved, the reported path comes from a
chain-valid goal node. -/
theorem solve_puzzle_solved_spec (start goal_state : List Nat) (fuel : Nat)
    (hstart : IsPerm start) (path : List (List Nat)) (m ex : Nat)
    (st2 : SearchState)
    (h : solve_puzzle start goal_state fuel = (.solved path m ex, st2)) :
    ∃ nd : PuzzleNode, chainOk start nd ∧ IsPerm nd.state ∧
      nd.state = goal_state ∧ path = reconstruct_path nd ∧ m = nd.g_cost := by
  unfold solve_puzzle at h
  dsimp only at h
  split at h
  · simp at h
  · refine solveLoop_solved_spec start goal_state fuel _ ?_ path m ex st2 h
    intro e he
    simp only [List.mem_singleton] at he
    subst he
    refine ⟨⟨rfl, rfl⟩, hstart, rfl, rfl, rfl⟩

/-- C6: whenever solve returns Solved, the returned path begins with
start, ends with goal, each consecutive pair of configurations differs by
exactly one swap of the blank with an adjacent tile, and moveCount equals
the length of the path minus one. -/
theorem C6_solved_path_valid (start goal_state : List Nat) (fuel : Nat)
    (path : List (List Nat)) (m ex : Nat) (st2 : SearchState)
    (hstart : IsPerm start)
    (h : solve_puzzle start goal_state fuel = (.solved path m ex, st2)) :
    path.head? = some start ∧ path.getLast? = some goal_state ∧
    path.Chain' IsAdjacentBlankSwap ∧ path.length = m + 1 := by
  obtain ⟨nd, hch, hperm, hgoal, rfl, rfl⟩ :=
    solve_puzzle_solved_spec start goal_state fuel hstart path m ex st2 h
  have hhead := chainOk_head start nd hch
  have hlast := reconstruct_path_last nd
  have hlen := chainOk_length start nd hch
  have hchain := chainOk_chain start nd hch
  refine ⟨hhead, by rw [hlast, hgoal], ?_, hlen⟩
  refine (chain_neighbor_adj (reconstruct_path nd) hchain ?_).1
  intro x hx
  rw [hhead] at hx
  simp only [Option.mem_def, Option.some_inj] at hx
  subst hx
  exact hstart

/-- Witness for C6 at a one-move instance. -/
theorem C6_witness :
    ([[1, 2, 3, 4, 5, 6, 7, 0, 8], GOAL_STATE] : List (List Nat)).head? =
        some [1, 2, 3, 4, 5, 6, 7, 0, 8] ∧
    ([[1, 2, 3, 4, 5, 6, 7, 0, 8], GOAL_STATE] : List (List Nat)).getLast? =
        some GOAL_STATE ∧
    ([[1, 2, 3, 4, 5, 6, 7, 0, 8], GOAL_STATE] : List (List Nat)).Chain'
        IsAdjacentBlankSwap ∧
    ([[1, 2, 3, 4, 5, 6, 7, 0, 8], GOAL_STATE] : List (List Nat)).length = 1 + 1 :=
  C6_solved_path_valid [1, 2, 3, 4, 5, 6, 7, 0, 8] GOAL_STATE 5
    [[1, 2, 3, 4, 5, 6, 7, 0, 8], GOAL_STATE] 1 1
    (solve_puzzle [1, 2, 3, 4, 5, 6, 7, 0, 8] GOAL_STATE 5).2 (by decide) (by rfl)

/-- C10: the permutation invariant is preserved: every neighbor of a
permutation is a permutation, and every configuration in a returned
Solved path is a permutation whenever the start is one. -/
theorem C10_perm_invariant :
    (∀ S : List Nat, IsPerm S → ∀ T ∈ neighborStates S, IsPerm T) ∧
    (∀ (start goal_state : List Nat) (fuel : Nat) (path : List (List Nat))
       (m ex : Nat) (st2 : SearchState), IsPerm start →
       solve_puzzle start goal_state fuel = (.solved path m ex, st2) →
       ∀ c ∈ path, IsPerm c) := by
  refine ⟨neighborStates_perm, ?_⟩
  intro start goal_state fuel path m ex st2 hstart h
  obtain ⟨nd, hch, hperm, hgoal, rfl, rfl⟩ :=
    solve_puzzle_solved_spec start goal_state fuel hstart path m ex st2 h
  have hchain := chainOk_chain start nd hch
  have hhead := chainOk_head start nd hch
  refine (chain_neighbor_adj (reconstruct_path nd) hchain ?_).2
  intro x hx
  rw [hhead] at hx
  simp only [Option.mem_def, Option.some_inj] at hx
  subst hx
  exact hstart

/-- Witness for C10 at a concrete neighbor of the canonical goal. -/
theorem C10_witness : IsPerm [1, 2, 3, 4, 5, 0, 7, 8, 6] :=
  C10_perm_invariant.1 GOAL_STATE (by decide) [1, 2, 3, 4, 5, 0, 7, 8, 6] (by decide)

/-! ## C3: closed-set discipline -/

/-- Lookup after insert at the same key. -/
theorem lookupA_insertA_self {α : Type} [DecidableEq α] :
    ∀ (d : List (α × Nat)) (k : α) (v : Nat), lookupA (insertA d k v) k = some v
  | [], k, v => by simp [insertA, lookupA]
  | (k1, v1) :: rest, k, v => by
    by_cases hk : k1 = k
    · subst hk
      simp [insertA, lookupA]
    · simp only [insertA, if_neg hk, lookupA, if_neg hk]
      exact lookupA_insertA_self rest k v

/-- Lookup after insert at a different key. -/
theorem lookupA_insertA_ne {α : Type} [DecidableEq α] :
    ∀ (d : List (α × Nat)) (k k2 : α) (v : Nat), k2 ≠ k →
      lookupA (insertA d k v) k2 = lookupA d k2
  | [], k, k2, v, hne => by
    simp only [insertA, lookupA]
    rw [if_neg (fun hc => hne hc.symm)]
  | (k1, v1) :: rest, k, k2, v, hne => by
    by_cases hk : k1 = k
    · subst hk
      simp only [insertA, if_pos rfl, lookupA]
      rw [if_neg (fun hc => hne hc.symm), if_neg (fun hc => hne hc.symm)]
    · simp only [insertA, if_neg hk, lookupA]
      by_cases hk2 : k1 = k2
      · rw [if_pos hk2, if_pos hk2]
      · rw [if_neg hk2, if_neg hk2]
        exact lookupA_insertA_ne rest k k2 v hne

/-- Membership in the closed set after an add. -/
theorem mem_setAdd (s : List (List Nat)) (x y : List Nat) :
    x ∈ setAdd s y ↔ x = y ∨ x ∈ s := by
  unfold setAdd
  split
  · constructor
    · intro h
      exact Or.inr h
    · rintro (rfl | h)
      · assumption
      · exact h
  · simp [List.mem_cons]

/-- The closed-set discipline the loop actually maintains: every frontier
id is at most the current id counter; `closedAtG` records, for each
closed configuration, the id-counter value at the moment it was first
closed; and every frontier entry whose configuration is closed was pushed
no later than that moment.  In particular, once a configuration is
closed, no new frontier entry is ever created for it. -/
def ClosedPushInv (st : SearchState) : Prop :=
  (∀ e ∈ st.open_set, e.2.1 ≤ st.unique_id) ∧
  (∀ s t, lookupA st.closedAtG s = some t → t ≤ st.unique_id) ∧
  (∀ s, s ∈ st.closed_set ↔ ∃ t, lookupA st.closedAtG s = some t) ∧
  (∀ e ∈ st.open_set, ∀ t, lookupA st.closedAtG e.2.2.state = some t → e.2.1 ≤ t)

/-- `pushNeighbor` preserves the closed-set discipline. -/
theorem pushNeighbor_closedInv (s : SearchState) (nb : PuzzleNode)
    (h : ClosedPushInv s) : ClosedPushInv (pushNeighbor s nb) := by
  obtain ⟨h1, h2, h3, h4⟩ := h
  unfold pushNeighbor
  split
  · exact ⟨h1, h2, h3, h4⟩
  · split
    · exact ⟨h1, h2, h3, h4⟩
    · rename_i hclosed hcost
      refine ⟨?_, ?_, h3, ?_⟩
      · intro e he
        simp only [List.mem_append, List.mem_singleton] at he
        rcases he with he | rfl
        · exact Nat.le_trans (h1 e he) (Nat.le_succ _)
        · exact Nat.le_refl _
      · intro s' t ht
        exact Nat.le_trans (h2 s' t ht) (Nat.le_succ _)
      · intro e he t ht
        simp only [List.mem_append, List.mem_singleton] at he
        rcases he with he | rfl
        · exact h4 e he t ht
        · exact absurd ((h3 nb.state).mpr ⟨t, ht⟩) hclosed

/-- The loop preserves the closed-set discipline. -/
theorem solveLoop_closedInv (goal_state : List Nat) :
    ∀ (fuel : Nat) (st : SearchState), ClosedPushInv st →
      ClosedPushInv (solveLoop goal_state st fuel).2 := by
  intro fuel
  induction fuel with
  | zero =>
    intro st h
    simpa [solveLoop] using h
  | succ n ih =>
    intro st h
    rw [solveLoop]
    cases hp : popMin st.open_set with
    | none => exact h
    | some pr =>
      obtain ⟨e, rest⟩ := pr
      dsimp only
      obtain ⟨h1, h2, h3, h4⟩ := h
      have hrest : ∀ x ∈ rest, x ∈ st.open_set := by
        intro x hx
        exact (popMin_perm hp).mem_iff.mpr (List.mem_cons_of_mem e hx)
      by_cases hgoal : e.2.2.state = goal_state
      · rw [if_pos hgoal]
        exact ⟨fun x hx => h1 x (hrest x hx), h2, h3,
          fun x hx => h4 x (hrest x hx)⟩
      · rw [if_neg hgoal]
        apply ih
        apply foldl_preserve ClosedPushInv pushNeighbor
        · refine ⟨fun x hx => h1 x (hrest x hx), ?_, ?_, ?_⟩
          · intro s t ht
            split at ht
            · exact h2 s t ht
            · rcases eq_or_ne s e.2.2.state with rfl | hne
              · rw [lookupA_insertA_self] at ht
                cases ht
                exact Nat.le_refl _
              · rw [lookupA_insertA_ne _ _ _ _ hne] at ht
                exact h2 s t ht
          · intro s
            rw [mem_setAdd]
            constructor
            · rintro (rfl | hs)
              · split
                · exact (h3 e.2.2.state).mp (by assumption)
                · exact ⟨st.unique_id, lookupA_insertA_self _ _ _⟩
              · split
                · exact (h3 s).mp hs
                · rcases eq_or_ne s e.2.2.state with rfl | hne
                  · exact ⟨st.unique_id, lookupA_insertA_self _ _ _⟩
                  · obtain ⟨t, ht⟩ := (h3 s).mp hs
                    exact ⟨t, by rw [lookupA_insertA_ne _ _ _ _ hne]; exact ht⟩
            · rintro ⟨t, ht⟩
              split at ht
              · exact Or.inr ((h3 s).mpr ⟨t, ht⟩)
              · rcases eq_or_ne s e.2.2.state with rfl | hne
                · exact Or.inl rfl
                · rw [lookupA_insertA_ne _ _ _ _ hne] at ht
                  exact Or.inr ((h3 s).mpr ⟨t, ht⟩)
          · intro x hx t ht
            split at ht
            · exact h4 x (hrest x hx) t ht
            · rcases eq_or_ne x.2.2.state e.2.2.state with heq | hne
              · rw [heq, lookupA_insertA_self] at ht
                cases ht
                exact h1 x (hrest x hx)
              · rw [lookupA_insertA_ne _ _ _ _ hne] at ht
                exact h4 x (hrest x hx) t ht
        · intro s' nb _ hP
          exact pushNeighbor_closedInv s' nb hP

/-- C3 counterexample: in the run on the solvable permutation
`(1,2,3,8,7,6,0,5,4)` against the canonical goal, the configuration
`(1,2,3,5,8,6,7,0,4)` goes through neighbor generation twice (at the 20th
and 30th pops): the loop pops frontier entries without checking the
closed set, so a configuration closed once can be re-expanded from a
stale frontier entry. -/
theorem C3_counterexample :
    IsPerm [1, 2, 3, 8, 7, 6, 0, 5, 4] ∧
    countInv ([1, 2, 3, 8, 7, 6, 0, 5, 4].filter (fun t => decide (t ≠ 0))) % 2 = 0 ∧
    (solve_puzzle [1, 2, 3, 8, 7, 6, 0, 5, 4] GOAL_STATE 30).2.expansions.count
      [1, 2, 3, 5, 8, 6, 7, 0, 4] = 2 := by
  decide

/-- C3 amended: once a configuration is closed, it is never pushed to the
frontier again: at every point of every run, each frontier entry whose
configuration is closed carries a unique id no larger than the id counter
at the moment the configuration was first closed (so it predates the
closing).  Re-expansion is possible only from such pre-existing entries. -/
theorem C3_amended_closed_never_repushed (start goal_state : List Nat) (fuel : Nat) :
    ClosedPushInv (solve_puzzle start goal_state fuel).2 := by
  unfold solve_puzzle
  dsimp only
  split
  · refine ⟨?_, ?_, ?_, ?_⟩ <;> simp [emptySearchState, lookupA]
  · apply solveLoop_closedInv
    refine ⟨?_, ?_, ?_, ?_⟩
    · intro e he
      simp only [List.mem_singleton] at he
      subst he
      exact Nat.le_refl _
    · intro s t ht
      simp [lookupA] at ht
    · intro s
      simp [lookupA]
    · intro e _ t ht
      simp [lookupA] at ht

/-! ## Inversion-count parity is a move invariant -/

/-- Cross inversions between two blocks: pairs with the left element in
`U` and a smaller right element in `V`. -/
def crossInv (U V : List Nat) : Nat :=
  (U.map (fun u => V.countP (fun v => decide (v < u)))).sum

/-- Inversions of a concatenation split into block inversions plus cross
inversions. -/
theorem countInv_append : ∀ (U V : List Nat),
    countInv (U ++ V) = countInv U + countInv V + crossInv U V
  | [], V => by simp [countInv, crossInv]
  | u :: U2, V => by
    simp only [List.cons_append, countInv, List.countP_append, crossInv,
      List.map_cons, List.sum_cons, List.append_eq]
    rw [countInv_append U2 V]
    unfold crossInv
    omega

/-- Cross inversions only depend on the right block up to permutation. -/
theorem crossInv_perm_right (U : List Nat) {V V2 : List Nat} (h : V.Perm V2) :
    crossInv U V = crossInv U V2 := by
  unfold crossInv
  congr 1
  apply List.map_congr_left
  intro u _
  exact h.countP_eq _

/-- Cross inversions only depend on the left block up to permutation. -/
theorem crossInv_perm_left {U U2 : List Nat} (V : List Nat) (h : U.Perm U2) :
    crossInv U V = crossInv U2 V := by
  unfold crossInv
  exact List.Perm.sum_eq (h.map _)

/-- Cross inversions are additive in the left block. -/
theorem crossInv_append_left (U1 U2 V : List Nat) :
    crossInv (U1 ++ U2) V = crossInv U1 V + crossInv U2 V := by
  unfold crossInv
  simp [List.map_append, List.sum_append]

/-- Replacing a middle block by a permutation of it changes the inversion
count by the difference of the blocks' own inversion counts; in
particular parities agree when the block parities do. -/
theorem countInv_middle_perm (A B X X2 : List Nat) (h : X.Perm X2)
    (hpar : countInv X % 2 = countInv X2 % 2) :
    countInv (A ++ X ++ B) % 2 = countInv (A ++ X2 ++ B) % 2 := by
  rw [countInv_append, countInv_append, countInv_append, countInv_append,
    crossInv_append_left, crossInv_append_left]
  rw [crossInv_perm_right A h, crossInv_perm_left B h]
  omega

/-- Right-associated version of the middle-block parity transfer. -/
theorem countInv_middle_perm2 (A B X X2 : List Nat) (h : X.Perm X2)
    (hpar : countInv X % 2 = countInv X2 % 2) :
    countInv (A ++ (X ++ B)) % 2 = countInv (A ++ (X2 ++ B)) % 2 := by
  rw [← List.append_assoc, ← List.append_assoc]
  exact countInv_middle_perm A B X X2 h hpar

/-- Distinct positions of a duplicate-free list hold distinct values. -/
theorem nodup_getD_ne (l : List Nat) (hnd : l.Nodup) (i j : Nat)
    (hi : i < l.length) (hj : j < l.length) (hij : i ≠ j) :
    l.getD i 0 ≠ l.getD j 0 := by
  rw [List.getD_eq_getElem l 0 hi, List.getD_eq_getElem l 0 hj]
  intro hc
  exact hij ((List.Nodup.getElem_inj_iff hnd).mp hc)

/-- Rotating three pairwise-distinct entries preserves inversion-count
parity. -/
theorem countInv_rot3_parity (y z t : Nat) (hyt : y ≠ t) (hzt : z ≠ t) :
    countInv [y, z, t] % 2 = countInv [t, y, z] % 2 := by
  simp only [countInv, List.countP_cons, List.countP_nil]
  have h1 : y < t ∨ t < y := by omega
  have h2 : z < t ∨ t < z := by omega
  rcases h1 with h1 | h1 <;> rcases h2 with h2 | h2 <;>
    simp [h1, h2, Nat.not_lt_of_lt] <;> split_ifs <;> omega

/-- One sliding move preserves the parity of the inversion count of the
non-blank tiles in linear order. -/
theorem move_parity (S T : List Nat) (hS : IsPerm S) (hT : T ∈ neighborStates S) :
    countInv (T.filter (fun x => decide (x ≠ 0))) % 2 =
      countInv (S.filter (fun x => decide (x ≠ 0))) % 2 := by
  have h9 := IsPerm.indexOf_zero_lt S hS
  have hlen : S.length = 9 := hS.length_eq.trans (by simp)
  have hnd : S.Nodup := hS.nodup_iff.mpr (List.nodup_range 9)
  obtain ⟨x0, x1, x2, x3, x4, x5, x6, x7, x8, rfl⟩ := len9_destruct S hlen
  have hsplit : [x0, x1, x2, x3, x4, x5, x6, x7, x8].indexOf 0 = 0 ∨
      [x0, x1, x2, x3, x4, x5, x6, x7, x8].indexOf 0 = 1 ∨
      [x0, x1, x2, x3, x4, x5, x6, x7, x8].indexOf 0 = 2 ∨
      [x0, x1, x2, x3, x4, x5, x6, x7, x8].indexOf 0 = 3 ∨
      [x0, x1, x2, x3, x4, x5, x6, x7, x8].indexOf 0 = 4 ∨
      [x0, x1, x2, x3, x4, x5, x6, x7, x8].indexOf 0 = 5 ∨
      [x0, x1, x2, x3, x4, x5, x6, x7, x8].indexOf 0 = 6 ∨
      [x0, x1, x2, x3, x4, x5, x6, x7, x8].indexOf 0 = 7 ∨
      [x0, x1, x2, x3, x4, x5, x6, x7, x8].indexOf 0 = 8 := by omega
  rcases hsplit with hb | hb | hb | hb | hb | hb | hb | hb | hb
  · have hb0 : x0 = 0 := by
      have hg := getD_indexOf_zero [x0, x1, x2, x3, x4, x5, x6, x7, x8] (by rw [hb]; simp)
      rw [hb] at hg
      simpa using hg
    subst hb0
    unfold neighborStates at hT
    rw [gn_blank0 _ none none 0 0 0 [] hb] at hT
    simp only [List.map_cons, List.map_nil, PuzzleNode.state, List.mem_cons,
      List.not_mem_nil, or_false] at hT
    rcases hT with rfl | rfl
    · have hy0 : x1 ≠ 0 := by
        have := nodup_getD_ne _ hnd 1 0 (by simp) (by simp) (by decide)
        simpa using this
      have hz0 : x2 ≠ 0 := by
        have := nodup_getD_ne _ hnd 2 0 (by simp) (by simp) (by decide)
        simpa using this
      have ht0 : x3 ≠ 0 := by
        have := nodup_getD_ne _ hnd 3 0 (by simp) (by simp) (by decide)
        simpa using this
      have hyt : x1 ≠ x3 := by
        have := nodup_getD_ne _ hnd 1 3 (by simp) (by simp) (by decide)
        simpa using this
      have hzt : x2 ≠ x3 := by
        have := nodup_getD_ne _ hnd 2 3 (by simp) (by simp) (by decide)
        simpa using this
      simp only [swapCells, List.set, List.getD, Option.getD_some, List.get?]
      rw [show ([x3, x1, x2, 0, x4, x5, x6, x7, x8] : List Nat) =
          [] ++ ([x3, x1, x2, 0] ++ [x4, x5, x6, x7, x8]) from rfl]
      rw [show ([0, x1, x2, x3, x4, x5, x6, x7, x8] : List Nat) =
          [] ++ ([0, x1, x2, x3] ++ [x4, x5, x6, x7, x8]) from rfl]
      rw [List.filter_append, List.filter_append, List.filter_append,
        List.filter_append]
      rw [show List.filter (fun x => decide (x ≠ 0)) [x3, x1, x2, 0] = [x3, x1, x2] from by
        simp [hy0, hz0, ht0]]
      rw [show List.filter (fun x => decide (x ≠ 0)) [0, x1, x2, x3] = [x1, x2, x3] from by
        simp [hy0, hz0, ht0]]
      exact countInv_middle_perm2 _ _ _ _
        (show ([x3, x1, x2] : List Nat).Perm [x1, x2, x3] from
          (@List.perm_middle _ x3 [x1, x2] []).symm)
        ((countInv_rot3_parity x1 x2 x3 hyt hzt).symm)
    · simp [swapCells, List.set, List.getD, List.filter]
  · have hb0 : x1 = 0 := by
      have hg := getD_indexOf_zero [x0, x1, x2, x3, x4, x5, x6, x7, x8] (by rw [hb]; simp)
      rw [hb] at hg
      simpa using hg
    subst hb0
    unfold neighborStates at hT
    rw [gn_blank1 _ none none 0 0 0 [] hb] at hT
    simp only [List.map_cons, List.map_nil, PuzzleNode.state, List.mem_cons,
      List.not_mem_nil, or_false] at hT
    rcases hT with rfl | rfl | rfl
    · have hy0 : x2 ≠ 0 := by
        have := nodup_getD_ne _ hnd 2 1 (by simp) (by simp) (by decide)
        simpa using this
      have hz0 : x3 ≠ 0 := by
        have := nodup_getD_ne _ hnd 3 1 (by simp) (by simp) (by decide)
        simpa using this
      have ht0 : x4 ≠ 0 := by
        have := nodup_getD_ne _ hnd 4 1 (by simp) (by simp) (by decide)
        simpa using this
      have hyt : x2 ≠ x4 := by
        have := nodup_getD_ne _ hnd 2 4 (by simp) (by simp) (by decide)
        simpa using this
      have hzt : x3 ≠ x4 := by
        have := nodup_getD_ne _ hnd 3 4 (by simp) (by simp) (by decide)
        simpa using this
      simp only [swapCells, List.set, List.getD, Option.getD_some, List.get?]
      rw [show ([x0, x4, x2, x3, 0, x5, x6, x7, x8] : List Nat) =
          [x0] ++ ([x4, x2, x3, 0] ++ [x5, x6, x7, x8]) from rfl]
      rw [show ([x0, 0, x2, x3, x4, x5, x6, x7, x8] : List Nat) =
          [x0] ++ ([0, x2, x3, x4] ++ [x5, x6, x7, x8]) from rfl]
      rw [List.filter_append, List.filter_append, List.filter_append,
        List.filter_append]
      rw [show List.filter (fun x => decide (x ≠ 0)) [x4, x2, x3, 0] = [x4, x2, x3] from by
        simp [hy0, hz0, ht0]]
      rw [show List.filter (fun x => decide (x ≠ 0)) [0, x2, x3, x4] = [x2, x3, x4] from by
        simp [hy0, hz0, ht0]]
      exact countInv_middle_perm2 _ _ _ _
        (show ([x4, x2, x3] : List Nat).Perm [x2, x3, x4] from
          (@List.perm_middle _ x4 [x2, x3] []).symm)
        ((countInv_rot3_parity x2 x3 x4 hyt hzt).symm)
    · simp [swapCells, List.set, List.getD, List.filter]
    · simp [swapCells, List.set, List.getD, List.filter]
  · have hb0 : x2 = 0 := by
      have hg := getD_indexOf_zero [x0, x1, x2, x3, x4, x5, x6, x7, x8] (by rw [hb]; simp)
      rw [hb] at hg
      simpa using hg
    subst hb0
    unfold neighborStates at hT
    rw [gn_blank2 _ none none 0 0 0 [] hb] at hT
    simp only [List.map_cons, List.map_nil, PuzzleNode.state, List.mem_cons,
      List.not_mem_nil, or_false] at hT
    rcases hT with rfl | rfl
    · have hy0 : x3 ≠ 0 := by
        have := nodup_getD_ne _ hnd 3 2 (by simp) (by simp) (by decide)
        simpa using this
      have hz0 : x4 ≠ 0 := by
        have := nodup_getD_ne _ hnd 4 2 (by simp) (by simp) (by decide)
        simpa using this
      have ht0 : x5 ≠ 0 := by
        have := nodup_getD_ne _ hnd 5 2 (by simp) (by simp) (by decide)
        simpa using this
      have hyt : x3 ≠ x5 := by
        have := nodup_getD_ne _ hnd 3 5 (by simp) (by simp) (by decide)
        simpa using this
      have hzt : x4 ≠ x5 := by
        have := nodup_getD_ne _ hnd 4 5 (by simp) (by simp) (by decide)
        simpa using this
      simp only [swapCells, List.set, List.getD, Option.getD_some, List.get?]
      rw [show ([x0, x1, x5, x3, x4, 0, x6, x7, x8] : List Nat) =
          [x0, x1] ++ ([x5, x3, x4, 0] ++ [x6, x7, x8]) from rfl]
      rw [show ([x0, x1, 0, x3, x4, x5, x6, x7, x8] : List Nat) =
          [x0, x1] ++ ([0, x3, x4, x5] ++ [x6, x7, x8]) from rfl]
      rw [List.filter_append, List.filter_append, List.filter_append,
        List.filter_append]
      rw [show List.filter (fun x => decide (x ≠ 0)) [x5, x3, x4, 0] = [x5, x3, x4] from by
        simp [hy0, hz0, ht0]]
      rw [show List.filter (fun x => decide (x ≠ 0)) [0, x3, x4, x5] = [x3, x4, x5] from by
        simp [hy0, hz0, ht0]]
      exact countInv_middle_perm2 _ _ _ _
        (show ([x5, x3, x4] : List Nat).Perm [x3, x4, x5] from
          (@List.perm_middle _ x5 [x3, x4] []).symm)
        ((countInv_rot3_parity x3 x4 x5 hyt hzt).symm)
    · simp [swapCells, List.set, List.getD, List.filter]
  · have hb0 : x3 = 0 := by
      have hg := getD_indexOf_zero [x0, x1, x2, x3, x4, x5, x6, x7, x8] (by rw [hb]; simp)
      rw [hb] at hg
      simpa using hg
    subst hb0
    unfold neighborStates at hT
    rw [gn_blank3 _ none none 0 0 0 [] hb] at hT
    simp only [List.map_cons, List.map_nil, PuzzleNode.state, List.mem_cons,
      List.not_mem_nil, or_false] at hT
    rcases hT with rfl | rfl | rfl
    · have hy0 : x1 ≠ 0 := by
        have := nodup_getD_ne _ hnd 1 3 (by simp) (by simp) (by decide)
        simpa using this
      have hz0 : x2 ≠ 0 := by
        have := nodup_getD_ne _ hnd 2 3 (by simp) (by simp) (by decide)
        simpa using this
      have ht0 : x0 ≠ 0 := by
        have := nodup_getD_ne _ hnd 0 3 (by simp) (by simp) (by decide)
        simpa using this
      have hyt : x1 ≠ x0 := by
        have := nodup_getD_ne _ hnd 1 0 (by simp) (by simp) (by decide)
        simpa using this
      have hzt : x2 ≠ x0 := by
        have := nodup_getD_ne _ hnd 2 0 (by simp) (by simp) (by decide)
        simpa using this
      simp only [swapCells, List.set, List.getD, Option.getD_some, List.get?]
      rw [show ([0, x1, x2, x0, x4, x5, x6, x7, x8] : List Nat) =
          [] ++ ([0, x1, x2, x0] ++ [x4, x5, x6, x7, x8]) from rfl]
      rw [show ([x0, x1, x2, 0, x4, x5, x6, x7, x8] : List Nat) =
          [] ++ ([x0, x1, x2, 0] ++ [x4, x5, x6, x7, x8]) from rfl]
      rw [List.filter_append, List.filter_append, List.filter_append,
        List.filter_append]
      rw [show List.filter (fun x => decide (x ≠ 0)) [0, x1, x2, x0] = [x1, x2, x0] from by
        simp [hy0, hz0, ht0]]
      rw [show List.filter (fun x => decide (x ≠ 0)) [x0, x1, x2, 0] = [x0, x1, x2] from by
        simp [hy0, hz0, ht0]]
      exact countInv_middle_perm2 _ _ _ _
        (show ([x1, x2, x0] : List Nat).Perm [x0, x1, x2] from
          @List.perm_middle _ x0 [x1, x2] [])
        (countInv_rot3_parity x1 x2 x0 hyt hzt)
    · have hy0 : x4 ≠ 0 := by
        have := nodup_getD_ne _ hnd 4 3 (by simp) (by simp) (by decide)
        simpa using this
      have hz0 : x5 ≠ 0 := by
        have := nodup_getD_ne _ hnd 5 3 (by simp) (by simp) (by decide)
        simpa using this
      have ht0 : x6 ≠ 0 := by
        have := nodup_getD_ne _ hnd 6 3 (by simp) (by simp) (by decide)
        simpa using this
      have hyt : x4 ≠ x6 := by
        have := nodup_getD_ne _ hnd 4 6 (by simp) (by simp) (by decide)
        simpa using this
      have hzt : x5 ≠ x6 := by
        have := nodup_getD_ne _ hnd 5 6 (by simp) (by simp) (by decide)
        simpa using this
      simp only [swapCells, List.set, List.getD, Option.getD_some, List.get?]
      rw [show ([x0, x1, x2, x6, x4, x5, 0, x7, x8] : List Nat) =
          [x0, x1, x2] ++ ([x6, x4, x5, 0] ++ [x7, x8]) from rfl]
      rw [show ([x0, x1, x2, 0, x4, x5, x6, x7, x8] : List Nat) =
          [x0, x1, x2] ++ ([0, x4, x5, x6] ++ [x7, x8]) from rfl]
      rw [List.filter_append, List.filter_append, List.filter_append,
        List.filter_append]
      rw [show List.filter (fun x => decide (x ≠ 0)) [x6, x4, x5, 0] = [x6, x4, x5] from by
        simp [hy0, hz0, ht0]]
      rw [show List.filter (fun x => decide (x ≠ 0)) [0, x4, x5, x6] = [x4, x5, x6] from by
        simp [hy0, hz0, ht0]]
      exact countInv_middle_perm2 _ _ _ _
        (show ([x6, x4, x5] : List Nat).Perm [x4, x5, x6] from
          (@List.perm_middle _ x6 [x4, x5] []).symm)
        ((countInv_rot3_parity x4 x5 x6 hyt hzt).symm)
    · simp [swapCells, List.set, List.getD, List.filter]
  · have hb0 : x4 = 0 := by
      have hg := getD_indexOf_zero [x0, x1, x2, x3, x4, x5, x6, x7, x8] (by rw [hb]; simp)
      rw [hb] at hg
      simpa using hg
    subst hb0
    unfold neighborStates at hT
    rw [gn_blank4 _ none none 0 0 0 [] hb] at hT
    simp only [List.map_cons, List.map_nil, PuzzleNode.state, List.mem_cons,
      List.not_mem_nil, or_false] at hT
    rcases hT with rfl | rfl | rfl | rfl
    · have hy0 : x2 ≠ 0 := by
        have := nodup_getD_ne _ hnd 2 4 (by simp) (by simp) (by decide)
        simpa using this
      have hz0 : x3 ≠ 0 := by
        have := nodup_getD_ne _ hnd 3 4 (by simp) (by simp) (by decide)
        simpa using this
      have ht0 : x1 ≠ 0 := by
        have := nodup_getD_ne _ hnd 1 4 (by simp) (by simp) (by decide)
        simpa using this
      have hyt : x2 ≠ x1 := by
        have := nodup_getD_ne _ hnd 2 1 (by simp) (by simp) (by decide)
        simpa using this
      have hzt : x3 ≠ x1 := by
        have := nodup_getD_ne _ hnd 3 1 (by simp) (by simp) (by decide)
        simpa using this
      simp only [swapCells, List.set, List.getD, Option.getD_some, List.get?]
      rw [show ([x0, 0, x2, x3, x1, x5, x6, x7, x8] : List Nat) =
          [x0] ++ ([0, x2, x3, x1] ++ [x5, x6, x7, x8]) from rfl]
      rw [show ([x0, x1, x2, x3, 0, x5, x6, x7, x8] : List Nat) =
          [x0] ++ ([x1, x2, x3, 0] ++ [x5, x6, x7, x8]) from rfl]
      rw [List.filter_append, List.filter_append, List.filter_append,
        List.filter_append]
      rw [show List.filter (fun x => decide (x ≠ 0)) [0, x2, x3, x1] = [x2, x3, x1] from by
        simp [hy0, hz0, ht0]]
      rw [show List.filter (fun x => decide (x ≠ 0)) [x1, x2, x3, 0] = [x1, x2, x3] from by
        simp [hy0, hz0, ht0]]
      exact countInv_middle_perm2 _ _ _ _
        (show ([x2, x3, x1] : List Nat).Perm [x1, x2, x3] from
          @List.perm_middle _ x1 [x2, x3] [])
        (countInv_rot3_parity x2 x3 x1 hyt hzt)
    · have hy0 : x5 ≠ 0 := by
        have := nodup_getD_ne _ hnd 5 4 (by simp) (by simp) (by decide)
        simpa using this
      have hz0 : x6 ≠ 0 := by
        have := nodup_getD_ne _ hnd 6 4 (by simp) (by simp) (by decide)
        simpa using this
      have ht0 : x7 ≠ 0 := by
        have := nodup_getD_ne _ hnd 7 4 (by simp) (by simp) (by decide)
        simpa using this
      have hyt : x5 ≠ x7 := by
        have := nodup_getD_ne _ hnd 5 7 (by simp) (by simp) (by decide)
        simpa using this
      have hzt : x6 ≠ x7 := by
        have := nodup_getD_ne _ hnd 6 7 (by simp) (by simp) (by decide)
        simpa using this
      simp only [swapCells, List.set, List.getD, Option.getD_some, List.get?]
      rw [show ([x0, x1, x2, x3, x7, x5, x6, 0, x8] : List Nat) =
          [x0, x1, x2, x3] ++ ([x7, x5, x6, 0] ++ [x8]) from rfl]
      rw [show ([x0, x1, x2, x3, 0, x5, x6, x7, x8] : List Nat) =
          [x0, x1, x2, x3] ++ ([0, x5, x6, x7] ++ [x8]) from rfl]
      rw [List.filter_append, List.filter_append, List.filter_append,
        List.filter_append]
      rw [show List.filter (fun x => decide (x ≠ 0)) [x7, x5, x6, 0] = [x7, x5, x6] from by
        simp [hy0, hz0, ht0]]
      rw [show List.filter (fun x => decide (x ≠ 0)) [0, x5, x6, x7] = [x5, x6, x7] from by
        simp [hy0, hz0, ht0]]
      exact countInv_middle_perm2 _ _ _ _
        (show ([x7, x5, x6] : List Nat).Perm [x5, x6, x7] from
          (@List.perm_middle _ x7 [x5, x6] []).symm)
        ((countInv_rot3_parity x5 x6 x7 hyt hzt).symm)
    · simp [swapCells, List.set, List.getD, List.filter]
    · simp [swapCells, List.set, List.getD, List.filter]
  · have hb0 : x5 = 0 := by
      have hg := getD_indexOf_zero [x0, x1, x2, x3, x4, x5, x6, x7, x8] (by rw [hb]; simp)
      rw [hb] at hg
      simpa using hg
    subst hb0
    unfold neighborStates at hT
    rw [gn_blank5 _ none none 0 0 0 [] hb] at hT
    simp only [List.map_cons, List.map_nil, PuzzleNode.state, List.mem_cons,
      List.not_mem_nil, or_false] at hT
    rcases hT with rfl | rfl | rfl
    · have hy0 : x3 ≠ 0 := by
        have := nodup_getD_ne _ hnd 3 5 (by simp) (by simp) (by decide)
        simpa using this
      have hz0 : x4 ≠ 0 := by
        have := nodup_getD_ne _ hnd 4 5 (by simp) (by simp) (by decide)
        simpa using this
      have ht0 : x2 ≠ 0 := by
        have := nodup_getD_ne _ hnd 2 5 (by simp) (by simp) (by decide)
        simpa using this
      have hyt : x3 ≠ x2 := by
        have := nodup_getD_ne _ hnd 3 2 (by simp) (by simp) (by decide)
        simpa using this
      have hzt : x4 ≠ x2 := by
        have := nodup_getD_ne _ hnd 4 2 (by simp) (by simp) (by decide)
        simpa using this
      simp only [swapCells, List.set, List.getD, Option.getD_some, List.get?]
      rw [show ([x0, x1, 0, x3, x4, x2, x6, x7, x8] : List Nat) =
          [x0, x1] ++ ([0, x3, x4, x2] ++ [x6, x7, x8]) from rfl]
      rw [show ([x0, x1, x2, x3, x4, 0, x6, x7, x8] : List Nat) =
          [x0, x1] ++ ([x2, x3, x4, 0] ++ [x6, x7, x8]) from rfl]
      rw [List.filter_append, List.filter_append, List.filter_append,
        List.filter_append]
      rw [show List.filter (fun x => decide (x ≠ 0)) [0, x3, x4, x2] = [x3, x4, x2] from by
        simp [hy0, hz0, ht0]]
      rw [show List.filter (fun x => decide (x ≠ 0)) [x2, x3, x4, 0] = [x2, x3, x4] from by
        simp [hy0, hz0, ht0]]
      exact countInv_middle_perm2 _ _ _ _
        (show ([x3, x4, x2] : List Nat).Perm [x2, x3, x4] from
          @List.perm_middle _ x2 [x3, x4] [])
        (countInv_rot3_parity x3 x4 x2 hyt hzt)
    · have hy0 : x6 ≠ 0 := by
        have := nodup_getD_ne _ hnd 6 5 (by simp) (by simp) (by decide)
        simpa using this
      have hz0 : x7 ≠ 0 := by
        have := nodup_getD_ne _ hnd 7 5 (by simp) (by simp) (by decide)
        simpa using this
      have ht0 : x8 ≠ 0 := by
        have := nodup_getD_ne _ hnd 8 5 (by simp) (by simp) (by decide)
        simpa using this
      have hyt : x6 ≠ x8 := by
        have := nodup_getD_ne _ hnd 6 8 (by simp) (by simp) (by decide)
        simpa using this
      have hzt : x7 ≠ x8 := by
        have := nodup_getD_ne _ hnd 7 8 (by simp) (by simp) (by decide)
        simpa using this
      simp only [swapCells, List.set, List.getD, Option.getD_some, List.get?]
      rw [show ([x0, x1, x2, x3, x4, x8, x6, x7, 0] : List Nat) =
          [x0, x1, x2, x3, x4] ++ ([x8, x6, x7, 0] ++ []) from rfl]
      rw [show ([x0, x1, x2, x3, x4, 0, x6, x7, x8] : List Nat) =
          [x0, x1, x2, x3, x4] ++ ([0, x6, x7, x8] ++ []) from rfl]
      rw [List.filter_append, List.filter_append, List.filter_append,
        List.filter_append]
      rw [show List.filter (fun x => decide (x ≠ 0)) [x8, x6, x7, 0] = [x8, x6, x7] from by
        simp [hy0, hz0, ht0]]
      rw [show List.filter (fun x => decide (x ≠ 0)) [0, x6, x7, x8] = [x6, x7, x8] from by
        simp [hy0, hz0, ht0]]
      exact countInv_middle_perm2 _ _ _ _
        (show ([x8, x6, x7] : List Nat).Perm [x6, x7, x8] from
          (@List.perm_middle _ x8 [x6, x7] []).symm)
        ((countInv_rot3_parity x6 x7 x8 hyt hzt).symm)
    · simp [swapCells, List.set, List.getD, List.filter]
  · have hb0 : x6 = 0 := by
      have hg := getD_indexOf_zero [x0, x1, x2, x3, x4, x5, x6, x7, x8] (by rw [hb]; simp)
      rw [hb] at hg
      simpa using hg
    subst hb0
    unfold neighborStates at hT
    rw [gn_blank6 _ none none 0 0 0 [] hb] at hT
    simp only [List.map_cons, List.map_nil, PuzzleNode.state, List.mem_cons,
      List.not_mem_nil, or_false] at hT
    rcases hT with rfl | rfl
    · have hy0 : x4 ≠ 0 := by
        have := nodup_getD_ne _ hnd 4 6 (by simp) (by simp) (by decide)
        simpa using this
      have hz0 : x5 ≠ 0 := by
        have := nodup_getD_ne _ hnd 5 6 (by simp) (by simp) (by decide)
        simpa using this
      have ht0 : x3 ≠ 0 := by
        have := nodup_getD_ne _ hnd 3 6 (by simp) (by simp) (by decide)
        simpa using this
      have hyt : x4 ≠ x3 := by
        have := nodup_getD_ne _ hnd 4 3 (by simp) (by simp) (by decide)
        simpa using this
      have hzt : x5 ≠ x3 := by
        have := nodup_getD_ne _ hnd 5 3 (by simp) (by simp) (by decide)
        simpa using this
      simp only [swapCells, List.set, List.getD, Option.getD_some, List.get?]
      rw [show ([x0, x1, x2, 0, x4, x5, x3, x7, x8] : List Nat) =
          [x0, x1, x2] ++ ([0, x4, x5, x3] ++ [x7, x8]) from rfl]
      rw [show ([x0, x1, x2, x3, x4, x5, 0, x7, x8] : List Nat) =
          [x0, x1, x2] ++ ([x3, x4, x5, 0] ++ [x7, x8]) from rfl]
      rw [List.filter_append, List.filter_append, List.filter_append,
        List.filter_append]
      rw [show List.filter (fun x => decide (x ≠ 0)) [0, x4, x5, x3] = [x4, x5, x3] from by
        simp [hy0, hz0, ht0]]
      rw [show List.filter (fun x => decide (x ≠ 0)) [x3, x4, x5, 0] = [x3, x4, x5] from by
        simp [hy0, hz0, ht0]]
      exact countInv_middle_perm2 _ _ _ _
        (show ([x4, x5, x3] : List Nat).Perm [x3, x4, x5] from
          @List.perm_middle _ x3 [x4, x5] [])
        (countInv_rot3_parity x4 x5 x3 hyt hzt)
    · simp [swapCells, List.set, List.getD, List.filter]
  · have hb0 : x7 = 0 := by
      have hg := getD_indexOf_zero [x0, x1, x2, x3, x4, x5, x6, x7, x8] (by rw [hb]; simp)
      rw [hb] at hg
      simpa using hg
    subst hb0
    unfold neighborStates at hT
    rw [gn_blank7 _ none none 0 0 0 [] hb] at hT
    simp only [List.map_cons, List.map_nil, PuzzleNode.state, List.mem_cons,
      List.not_mem_nil, or_false] at hT
    rcases hT with rfl | rfl | rfl
    · have hy0 : x5 ≠ 0 := by
        have := nodup_getD_ne _ hnd 5 7 (by simp) (by simp) (by decide)
        simpa using this
      have hz0 : x6 ≠ 0 := by
        have := nodup_getD_ne _ hnd 6 7 (by simp) (by simp) (by decide)
        simpa using this
      have ht0 : x4 ≠ 0 := by
        have := nodup_getD_ne _ hnd 4 7 (by simp) (by simp) (by decide)
        simpa using this
      have hyt : x5 ≠ x4 := by
        have := nodup_getD_ne _ hnd 5 4 (by simp) (by simp) (by decide)
        simpa using this
      have hzt : x6 ≠ x4 := by
        have := nodup_getD_ne _ hnd 6 4 (by simp) (by simp) (by decide)
        simpa using this
      simp only [swapCells, List.set, List.getD, Option.getD_some, List.get?]
      rw [show ([x0, x1, x2, x3, 0, x5, x6, x4, x8] : List Nat) =
          [x0, x1, x2, x3] ++ ([0, x5, x6, x4] ++ [x8]) from rfl]
      rw [show ([x0, x1, x2, x3, x4, x5, x6, 0, x8] : List Nat) =
          [x0, x1, x2, x3] ++ ([x4, x5, x6, 0] ++ [x8]) from rfl]
      rw [List.filter_append, List.filter_append, List.filter_append,
        List.filter_append]
      rw [show List.filter (fun x => decide (x ≠ 0)) [0, x5, x6, x4] = [x5, x6, x4] from by
        simp [hy0, hz0, ht0]]
      rw [show List.filter (fun x => decide (x ≠ 0)) [x4, x5, x6, 0] = [x4, x5, x6] from by
        simp [hy0, hz0, ht0]]
      exact countInv_middle_perm2 _ _ _ _
        (show ([x5, x6, x4] : List Nat).Perm [x4, x5, x6] from
          @List.perm_middle _ x4 [x5, x6] [])
        (countInv_rot3_parity x5 x6 x4 hyt hzt)
    · simp [swapCells, List.set, List.getD, List.filter]
    · simp [swapCells, List.set, List.getD, List.filter]
  · have hb0 : x8 = 0 := by
      have hg := getD_indexOf_zero [x0, x1, x2, x3, x4, x5, x6, x7, x8] (by rw [hb]; simp)
      rw [hb] at hg
      simpa using hg
    subst hb0
    unfold neighborStates at hT
    rw [gn_blank8 _ none none 0 0 0 [] hb] at hT
    simp only [List.map_cons, List.map_nil, PuzzleNode.state, List.mem_cons,
      List.not_mem_nil, or_false] at hT
    rcases hT with rfl | rfl
    · have hy0 : x6 ≠ 0 := by
        have := nodup_getD_ne _ hnd 6 8 (by simp) (by simp) (by decide)
        simpa using this
      have hz0 : x7 ≠ 0 := by
        have := nodup_getD_ne _ hnd 7 8 (by simp) (by simp) (by decide)
        simpa using this
      have ht0 : x5 ≠ 0 := by
        have := nodup_getD_ne _ hnd 5 8 (by simp) (by simp) (by decide)
        simpa using this
      have hyt : x6 ≠ x5 := by
        have := nodup_getD_ne _ hnd 6 5 (by simp) (by simp) (by decide)
        simpa using this
      have hzt : x7 ≠ x5 := by
        have := nodup_getD_ne _ hnd 7 5 (by simp) (by simp) (by decide)
        simpa using this
      simp only [swapCells, List.set, List.getD, Option.getD_some, List.get?]
      rw [show ([x0, x1, x2, x3, x4, 0, x6, x7, x5] : List Nat) =
          [x0, x1, x2, x3, x4] ++ ([0, x6, x7, x5] ++ []) from rfl]
      rw [show ([x0, x1, x2, x3, x4, x5, x6, x7, 0] : List Nat) =
          [x0, x1, x2, x3, x4] ++ ([x5, x6, x7, 0] ++ []) from rfl]
      rw [List.filter_append, List.filter_append, List.filter_append,
        List.filter_append]
      rw [show List.filter (fun x => decide (x ≠ 0)) [0, x6, x7, x5] = [x6, x7, x5] from by
        simp [hy0, hz0, ht0]]
      rw [show List.filter (fun x => decide (x ≠ 0)) [x5, x6, x7, 0] = [x5, x6, x7] from by
        simp [hy0, hz0, ht0]]
      exact countInv_middle_perm2 _ _ _ _
        (show ([x6, x7, x5] : List Nat).Perm [x5, x6, x7] from
          @List.perm_middle _ x5 [x6, x7] [])
        (countInv_rot3_parity x6 x7 x5 hyt hzt)
    · simp [swapCells, List.set, List.getD, List.filter]
